import Mathlib

/-!
# swarm-prune: a shallow embedding of `main.go` and `utils.go`

The program is a sequential command-line tool.  Everything it does to the outside
world is one of: a call of the Docker remote API through a client handle, a line
on the console, a read of one line of standard input, or the end of the process.
The embedding threads an explicit `State` (the trace of what has happened so far
and the unread part of standard input) through every function, and takes every
library function and every remote answer from an environment `Env`.

Machine integers: `uint64` byte counts are natural numbers and every `+=` of the
source is an addition modulo `2 ^ 64`.
-/

namespace SwarmPrune

/-! ## Data model -/

/-- Go `tlsconfig.Options`: the four fields the global flags write into. -/
structure Options where
  CAFile : String
  CertFile : String
  KeyFile : String
  InsecureSkipVerify : Bool
deriving DecidableEq, Repr

/-- Go `tlsconfig.Options{}`: the zero value. -/
def Options.zero : Options := ⟨"", "", "", false⟩

/-- Go `*tls.Config` as produced by `tlsconfig.Client`; what it holds is decided by
the library, the program only stores the pointer in the transport. -/
structure TLSConfig where
  InsecureSkipVerify : Bool
  RootCAs : List String
  Certificates : List String
deriving DecidableEq, Repr

/-- Go `http.Transport` as far as the program sets it up: the `TLSClientConfig` field
(`none` is the nil pointer, a plain transport) and the protocol and address handed to
`sockets.ConfigureTransport`. -/
structure Transport where
  TLSClientConfig : Option TLSConfig
  proto : String
  addr : String
deriving DecidableEq, Repr

/-- Go `http.Client{Transport: tr}`. -/
structure HTTPClient where
  Transport : Transport
deriving DecidableEq, Repr

/-- The handle returned by `client.NewClient(host, version, httpClient, headers)`,
identified with the four arguments it was built from. -/
structure Client where
  host : String
  version : String
  client : HTTPClient
  customHTTPHeaders : List (String × String)
deriving DecidableEq, Repr

/-- Go `swarm.ManagerStatus`. -/
structure ManagerStatus where
  Leader : Bool
  Reachability : String
  Addr : String
deriving DecidableEq, Repr

/-- Go `swarm.Node`, the fields the program reads: `Description.Hostname`, `Spec.Role`
and the `ManagerStatus` pointer (`none` is nil). -/
structure Node where
  ID : String
  Hostname : String
  Role : String
  ManagerStatus : Option ManagerStatus
deriving DecidableEq, Repr

/-- Go `types.Info`, the field the program reads: `Swarm.NodeID`. -/
structure Info where
  SwarmNodeID : String
deriving DecidableEq, Repr

/-- Go `types.ContainersPruneReport`. -/
structure ContainersPruneReport where
  ContainersDeleted : List String
  SpaceReclaimed : Nat
deriving DecidableEq, Repr

/-- Go `types.VolumesPruneReport`. -/
structure VolumesPruneReport where
  VolumesDeleted : List String
  SpaceReclaimed : Nat
deriving DecidableEq, Repr

/-- Go `types.ImageDelete`. -/
structure ImageDelete where
  Untagged : String
  Deleted : String
deriving DecidableEq, Repr

/-- Go `types.ImagesPruneReport`. -/
structure ImagesPruneReport where
  ImagesDeleted : List ImageDelete
  SpaceReclaimed : Nat
deriving DecidableEq, Repr

/-- Go `types.NetworksPruneReport`. -/
structure NetworksPruneReport where
  NetworksDeleted : List String
deriving DecidableEq, Repr

/-- Go `types.DiskUsage`, with the listed objects reduced to their identifiers. -/
structure DiskUsage where
  LayersSize : Int
  Images : List String
  Containers : List String
  Volumes : List String
deriving DecidableEq, Repr

/-- The remote API requests the program issues; `ImagesPrune` carries the
`DanglingOnly` field of its `types.ImagesPruneConfig`. -/
inductive Request where
  | Info
  | NodeInspectWithRaw (nodeID : String)
  | NodeList
  | ContainersPrune
  | ImagesPrune (DanglingOnly : Bool)
  | NetworksPrune
  | VolumesPrune
  | DiskUsage
deriving DecidableEq, Repr

/-- One observable step of a run. -/
inductive Event where
  /-- A remote API request issued through the client handle `c`. -/
  | call (c : Client) (r : Request)
  /-- The text written by `fmt.Println`, without the final newline. -/
  | println (s : String)
  /-- The line `fmt.Println(label, units.HumanSize(float64(bytes)))`. -/
  | printlnSize (label : String) (bytes : Nat)
  /-- The text written by `fmt.Printf("%s [y/N]: ", s)`. -/
  | prompt (s : String)
  /-- The message of `log.Fatal`. -/
  | logFatal (msg : String)
  /-- The call `duCtx.Write()` of the disk usage formatter. -/
  | diskUsageWrite (du : DiskUsage) (verbose : Bool)
deriving DecidableEq, Repr

/-- The state threaded through a run: the trace so far (oldest event first) and the
unread standard input.  `stdin` lists the successive results of
`reader.ReadString` with the newline delimiter: each element is one line with its
newline; once the list is empty the read fails with `io.EOF` (data after the last
newline comes back together with that error and the caller drops it). -/
structure State where
  trace : List Event
  stdin : List String
deriving DecidableEq, Repr

/-- Append one event to the trace. -/
def State.emit (st : State) (e : Event) : State :=
  ⟨st.trace ++ [e], st.stdin⟩

/-- How a Go function call ends: it returns a value, the process is ended by
`os.Exit(code)`, or it panics with an error that nothing recovers. -/
inductive Result (α : Type) where
  | ok (a : α)
  | exit (code : Nat)
  | panic (msg : String)
deriving DecidableEq, Repr

/-- Sequencing: the continuation runs only when the first part returned. -/
def andThen {α β : Type} (x : Result α × State) (f : α → State → Result β × State) :
    Result β × State :=
  match x with
  | (.ok a, st) => f a st
  | (.exit c, st) => (.exit c, st)
  | (.panic e, st) => (.panic e, st)

/-- Everything outside the repository: the platform, the process environment, the
library functions the source calls, and the answers of the remote API.  An API answer
may depend on the whole trace up to the call and on the client handle used. -/
structure Env where
  GOOS : String
  Getenv : String → String
  tlsconfigClient : Options → Except String TLSConfig
  ParseHost : String → Except String (String × String × String)
  NewClientError : String → String → HTTPClient → List (String × String) → Option String
  Info : List Event → Client → Except String Info
  NodeInspectWithRaw : List Event → Client → String → Except String Node
  NodeList : List Event → Client → Except String (List Node)
  ContainersPrune : List Event → Client → Except String ContainersPruneReport
  ImagesPrune : List Event → Client → Bool → Except String ImagesPruneReport
  NetworksPrune : List Event → Client → Except String NetworksPruneReport
  VolumesPrune : List Event → Client → Except String VolumesPruneReport
  DiskUsage : List Event → Client → Except String DiskUsage

/-- The package level variables `host` and `tlsOptions`, as set by the global flags
`--host`, `--tlscacert`, `--tlscert`, `--tlskey` and `--tlsverify`. -/
structure Globals where
  host : String
  tlsOptions : Options
deriving DecidableEq, Repr

/-- Go `defaultHost`. -/
def defaultHost : String := "unix:///var/run/docker.sock"

/-- Go `clientVersion`. -/
def clientVersion : String := "1.25"

/-- Addition of two `uint64` values. -/
def addU64 (a b : Nat) : Nat := (a + b) % 2 ^ 64

/-! ## utils.go -/

/-- Go `unicode.IsSpace`. -/
def isSpace (c : Char) : Bool :=
  c = '\t' || c = '\n' || c.toNat = 0x0B || c.toNat = 0x0C || c = '\r' || c = ' ' ||
  c.toNat = 0x85 || c.toNat = 0xA0 || c.toNat = 0x1680 ||
  (0x2000 ≤ c.toNat && c.toNat ≤ 0x200A) ||
  c.toNat = 0x2028 || c.toNat = 0x2029 || c.toNat = 0x202F || c.toNat = 0x205F ||
  c.toNat = 0x3000

/-- Go `strings.TrimSpace`. -/
def TrimSpace (s : String) : String :=
  ⟨((s.data.dropWhile isSpace).reverse.dropWhile isSpace).reverse⟩

/-- Go `clientUserAgent`: `fmt.Sprintf("Docker-Client/%s (%s)", clientVersion, runtime.GOOS)`. -/
def clientUserAgent (env : Env) : String :=
  "Docker-Client/" ++ clientVersion ++ " (" ++ env.GOOS ++ ")"

/-- Go `newHTTPClient`; `tlsOptions = none` is the nil pointer. -/
def newHTTPClient (env : Env) (host : String) (tlsOptions : Option Options) :
    Except String HTTPClient :=
  let config : Except String (Option TLSConfig) :=
    match tlsOptions with
    | some o =>
      match env.tlsconfigClient o with
      | .error err => .error err
      | .ok cfg => .ok (some cfg)
    | none => .ok none
  match config with
  | .error err => .error err
  | .ok config =>
    match env.ParseHost host with
    | .error err => .error err
    | .ok (proto, addr, _) => .ok ⟨⟨config, proto, addr⟩⟩

/-- The `tlsOptions` pointer that `NewDockerClient` hands to `newHTTPClient`: nil as
soon as one of the three file names is empty. -/
def tlsOptionsPassed (tls : Options) : Option Options :=
  if tls.KeyFile = "" ∨ tls.CAFile = "" ∨ tls.CertFile = "" then none else some tls

/-- Go `NewDockerClient`. -/
def NewDockerClient (env : Env) (host : String) (tls : Options) : Except String Client :=
  let tlsOptions := tlsOptionsPassed tls
  let customHeaders := [("User-Agent", clientUserAgent env)]
  let verStr := if env.Getenv "DOCKER_API_VERSION" ≠ "" then env.Getenv "DOCKER_API_VERSION"
    else clientVersion
  match newHTTPClient env host tlsOptions with
  | .error err => .error err
  | .ok httpClient =>
    match env.NewClientError host verStr httpClient customHeaders with
    | some err => .error err
    | none => .ok ⟨host, verStr, httpClient, customHeaders⟩

/-- Go `DockerClient`: the local `tlsOptions := tlsconfig.Options{}` shadows the package
variable, and an error of `NewDockerClient` is a panic. -/
def DockerClient (env : Env) (host : String) : Result Client :=
  let tlsOptions := Options.zero
  match NewDockerClient env host tlsOptions with
  | .error err => .panic err
  | .ok dockerClient => .ok dockerClient

/-- Go `amISwarmManager`: the pair `(bool, error)`, `none` being the nil error. -/
def amISwarmManager (env : Env) (host : String) (st : State) :
    Result (Bool × Option String) × State :=
  match DockerClient env host with
  | .panic e => (.panic e, st)
  | .exit c => (.exit c, st)
  | .ok client =>
    let st1 := st.emit (.call client .Info)
    match env.Info st.trace client with
    | .error err => (.ok (false, some err), st1)
    | .ok info =>
      let st2 := st1.emit (.call client (.NodeInspectWithRaw info.SwarmNodeID))
      match env.NodeInspectWithRaw st1.trace client info.SwarmNodeID with
      | .error err => (.ok (false, some err), st2)
      | .ok node =>
        if node.ManagerStatus = none then (.ok (false, none), st2)
        else if node.Role = "manager" then (.ok (true, none), st2)
        else (.ok (false, some "Node is NOT a manager"), st2)

/-- Go `validate`. -/
def validate (env : Env) (host : String) (st : State) : Result Unit × State :=
  andThen (amISwarmManager env host st) fun r st1 =>
    match r with
    | (_, some err) => (.exit 1, st1.emit (.println ("ERROR: " ++ " " ++ err)))
    | (isManager, none) =>
      if !isManager then
        (.exit 1, st1.emit (.println "ERROR: This script needs to run on a swarm manager."))
      else (.ok (), st1)

/-- The loop of Go `askToConfirm` over the lines still to be read: every round prints
the prompt and reads one line; `log.Fatal` on a read error ends the process with
status 1. -/
def askToConfirmLoop (s : String) : List String → List Event → Result Bool × State
  | [], tr => (.exit 1, ⟨tr ++ [.prompt (s ++ " [y/N]: "), .logFatal "EOF"], []⟩)
  | line :: rest, tr =>
    let response := TrimSpace line
    if response = "y" then (.ok true, ⟨tr ++ [.prompt (s ++ " [y/N]: ")], rest⟩)
    else if response = "N" then (.ok false, ⟨tr ++ [.prompt (s ++ " [y/N]: ")], rest⟩)
    else askToConfirmLoop s rest (tr ++ [.prompt (s ++ " [y/N]: ")])

/-- Go `askToConfirm`. -/
def askToConfirm (s : String) (st : State) : Result Bool × State :=
  askToConfirmLoop s st.stdin st.trace

/-- Go `verifyOK`. -/
def verifyOK (flag : Bool) (st : State) : Result Bool × State :=
  if !flag then
    andThen (askToConfirm "Are you sure, you want to do this?" st) fun ok st1 =>
      if !ok then (.ok false, st1) else (.ok true, st1)
  else (.ok true, st)

/-- Go `SwarmNodes`: an error of the node list call is a panic. -/
def SwarmNodes (env : Env) (host : String) (st : State) : Result (List Node) × State :=
  match DockerClient env host with
  | .panic e => (.panic e, st)
  | .exit c => (.exit c, st)
  | .ok cli =>
    let st1 := st.emit (.call cli .NodeList)
    match env.NodeList st.trace cli with
    | .error err => (.panic err, st1)
    | .ok nodes => (.ok nodes, st1)

/-- Go `volumePrune`: the named results `(spaceReclaimed, err)`. -/
def volumePrune (env : Env) (host : String) (st : State) :
    Result (Nat × Option String) × State :=
  match DockerClient env host with
  | .panic e => (.panic e, st)
  | .exit c => (.exit c, st)
  | .ok cli =>
    let st1 := st.emit (.call cli .VolumesPrune)
    match env.VolumesPrune st.trace cli with
    | .error err => (.ok (0, some err), st1)
    | .ok report =>
      if report.VolumesDeleted.length > 0 then
        let output := report.VolumesDeleted.foldl (fun out id => out ++ id ++ "\n")
          "     Deleted Volumes:\n"
        (.ok (report.SpaceReclaimed, none), st1.emit (.println output))
      else
        (.ok (0, none), st1.emit (.println "\n    No Volumes Deleted\n"))

/-- Go `containerPrune`. -/
def containerPrune (env : Env) (host : String) (st : State) :
    Result (Nat × Option String) × State :=
  match DockerClient env host with
  | .panic e => (.panic e, st)
  | .exit c => (.exit c, st)
  | .ok cli =>
    let st1 := st.emit (.call cli .ContainersPrune)
    match env.ContainersPrune st.trace cli with
    | .error err => (.ok (0, some err), st1)
    | .ok report =>
      if report.ContainersDeleted.length > 0 then
        let output := report.ContainersDeleted.foldl
          (fun out id => out ++ "        " ++ id ++ "\n") "\n    Deleted Containers:"
        (.ok (report.SpaceReclaimed, none), st1.emit (.println output))
      else
        (.ok (0, none), st1.emit (.println "\n    No Containers Deleted\n"))

/-- Go `imagePrune`; `spaceReclaimed += report.SpaceReclaimed` starts from zero. -/
def imagePrune (env : Env) (host : String) (all : Bool) (st : State) :
    Result (Nat × Option String) × State :=
  match DockerClient env host with
  | .panic e => (.panic e, st)
  | .exit c => (.exit c, st)
  | .ok cli =>
    let st1 := st.emit (.call cli (.ImagesPrune (!all)))
    match env.ImagesPrune st.trace cli (!all) with
    | .error err => (.ok (0, some err), st1)
    | .ok report =>
      if report.ImagesDeleted.length > 0 then
        let output := report.ImagesDeleted.foldl
          (fun out im =>
            if im.Untagged ≠ "" then out ++ ("        untagged:" ++ " " ++ im.Untagged ++ "\n")
            else out ++ ("        deleted:" ++ " " ++ im.Deleted ++ "\n"))
          "\n    Deleted Images:\n"
        (.ok (addU64 0 report.SpaceReclaimed, none), st1.emit (.println output))
      else
        (.ok (0, none), st1.emit (.println "\n    No Images Deleted\n"))

/-- Go `networkPrune`: the only result is the error. -/
def networkPrune (env : Env) (host : String) (st : State) : Result (Option String) × State :=
  match DockerClient env host with
  | .panic e => (.panic e, st)
  | .exit c => (.exit c, st)
  | .ok cli =>
    let st1 := st.emit (.call cli .NetworksPrune)
    match env.NetworksPrune st.trace cli with
    | .error err => (.ok (some err), st1)
    | .ok report =>
      if report.NetworksDeleted.length > 0 then
        let output := report.NetworksDeleted.foldl
          (fun out id => out ++ "        " ++ id ++ "\n") "    Deleted Networks:\n"
        (.ok none, st1.emit (.println output))
      else
        (.ok none, st1.emit (.println "\n    No Networks Deleted\n"))

/-- Go `df`. -/
def df (env : Env) (host : String) (verbose : Bool) (st : State) :
    Result (Option String) × State :=
  match DockerClient env host with
  | .panic e => (.panic e, st)
  | .exit c => (.exit c, st)
  | .ok cli =>
    let st1 := st.emit (.call cli .DiskUsage)
    match env.DiskUsage st.trace cli with
    | .error err => (.ok (some err), st1)
    | .ok du => (.ok none, st1.emit (.diskUsageWrite du verbose))

/-! ## main.go -/

/-- Go `cli.NewExitError(message, exitCode)`. -/
structure ExitError where
  message : String
  exitCode : Nat
deriving DecidableEq, Repr

/-- The statement `if err != nil { fmt.Println(err) }`. -/
def printErr (err : Option String) (st : State) : State :=
  match err with
  | some e => st.emit (.println e)
  | none => st

/-- The address of a node: `"tcp://" + node.Description.Hostname + ":2375"`. -/
def nodeAddr (node : Node) : String := "tcp://" ++ node.Hostname ++ ":2375"

/-- The text of `fmt.Println("###### ", node.Description.Hostname, " ", node.Spec.Role)`. -/
def nodeHeader (node : Node) : String :=
  "###### " ++ " " ++ node.Hostname ++ " " ++ " " ++ " " ++ node.Role

/-- The result of `cli.NewExitError("Ok, will not do anything. exiting now.", 0)`. -/
def declined : ExitError := ⟨"Ok, will not do anything. exiting now.", 0⟩

/-- One round of the node loop of the `system` command; the argument and the result
are `totalSpaceReclaimed` before and after the round. -/
def systemNode (env : Env) (all : Bool) (node : Node) (totalSpaceReclaimed : Nat)
    (st : State) : Result Nat × State :=
  let spaceReclaimed := 0
  let st := st.emit (.println (nodeHeader node))
  andThen (containerPrune env (nodeAddr node) st) fun r st =>
    let sr := r.1
    let st := printErr r.2 st
    let spaceReclaimed := addU64 spaceReclaimed sr
    andThen (imagePrune env (nodeAddr node) all st) fun r st =>
      let sr := r.1
      let st := printErr r.2 st
      let spaceReclaimed := addU64 spaceReclaimed sr
      andThen (networkPrune env (nodeAddr node) st) fun err st =>
        let st := printErr err st
        let spaceReclaimed := addU64 spaceReclaimed sr
        andThen (volumePrune env (nodeAddr node) st) fun r st =>
          let sr := r.1
          let st := printErr r.2 st
          let spaceReclaimed := addU64 spaceReclaimed sr
          let totalSpaceReclaimed := addU64 totalSpaceReclaimed spaceReclaimed
          (.ok totalSpaceReclaimed,
            st.emit (.printlnSize "  Node reclaimed space:" spaceReclaimed))

/-- The node loop of the `system` command. -/
def systemNodes (env : Env) (all : Bool) : List Node → Nat → State → Result Nat × State
  | [], totalSpaceReclaimed, st => (.ok totalSpaceReclaimed, st)
  | node :: rest, totalSpaceReclaimed, st =>
    andThen (systemNode env all node totalSpaceReclaimed st) fun total st =>
      systemNodes env all rest total st

/-- The `Action` of the `system` command. -/
def systemAction (env : Env) (host : String) (force all : Bool) (st : State) :
    Result (Option ExitError) × State :=
  andThen (validate env host st) fun _ st =>
    andThen (verifyOK force st) fun ok st =>
      if !ok then (.ok (some declined), st)
      else
        andThen (SwarmNodes env host st) fun nodes st =>
          andThen (systemNodes env all nodes 0 st) fun totalSpaceReclaimed st =>
            (.ok none,
              st.emit (.printlnSize "\n  Total Swarm reclaimed space:" totalSpaceReclaimed))

/-- One round of a node loop that runs a single byte-counting prune `op` on the
node (the loops of `containers`, `images` and `volumes` differ only in `op`). -/
def singleNode (op : String → State → Result (Nat × Option String) × State) (node : Node)
    (totalSpaceReclaimed : Nat) (st : State) : Result Nat × State :=
  let st := st.emit (.println (nodeHeader node))
  andThen (op (nodeAddr node) st) fun r st =>
    let spaceReclaimed := r.1
    let st := printErr r.2 st
    let totalSpaceReclaimed := addU64 totalSpaceReclaimed spaceReclaimed
    (.ok totalSpaceReclaimed, st.emit (.printlnSize "  Node reclaimed space:" spaceReclaimed))

/-- The node loop of the `containers`, `images` and `volumes` commands. -/
def singleNodes (op : String → State → Result (Nat × Option String) × State) :
    List Node → Nat → State → Result Nat × State
  | [], totalSpaceReclaimed, st => (.ok totalSpaceReclaimed, st)
  | node :: rest, totalSpaceReclaimed, st =>
    andThen (singleNode op node totalSpaceReclaimed st) fun total st =>
      singleNodes op rest total st

/-- The `Action` of the `containers` command. -/
def containersAction (env : Env) (host : String) (force : Bool) (st : State) :
    Result (Option ExitError) × State :=
  andThen (validate env host st) fun _ st =>
    andThen (verifyOK force st) fun ok st =>
      if !ok then (.ok (some declined), st)
      else
        andThen (SwarmNodes env host st) fun nodes st =>
          andThen (singleNodes (containerPrune env) nodes 0 st) fun totalSpaceReclaimed st =>
            (.ok none,
              st.emit (.printlnSize "\n    Total Swarm reclaimed space:" totalSpaceReclaimed))

/-- The `Action` of the `images` command. -/
def imagesAction (env : Env) (host : String) (force all : Bool) (st : State) :
    Result (Option ExitError) × State :=
  andThen (validate env host st) fun _ st =>
    andThen (verifyOK force st) fun ok st =>
      if !ok then (.ok (some declined), st)
      else
        andThen (SwarmNodes env host st) fun nodes st =>
          andThen (singleNodes (fun addr => imagePrune env addr all) nodes 0 st)
            fun totalSpaceReclaimed st =>
              (.ok none,
                st.emit (.printlnSize "\n    Total Swarm reclaimed space:" totalSpaceReclaimed))

/-- The `Action` of the `volumes` command. -/
def volumesAction (env : Env) (host : String) (force : Bool) (st : State) :
    Result (Option ExitError) × State :=
  andThen (validate env host st) fun _ st =>
    andThen (verifyOK force st) fun ok st =>
      if !ok then (.ok (some declined), st)
      else
        andThen (SwarmNodes env host st) fun nodes st =>
          andThen (singleNodes (volumePrune env) nodes 0 st) fun totalSpaceReclaimed st =>
            (.ok none,
              st.emit (.printlnSize "\n    Total Swarm reclaimed space:" totalSpaceReclaimed))

/-- The node loop of the `networks` command. -/
def networksNodes (env : Env) : List Node → State → Result Unit × State
  | [], st => (.ok (), st)
  | node :: rest, st =>
    let st := st.emit (.println (nodeHeader node))
    andThen (networkPrune env (nodeAddr node) st) fun err st =>
      networksNodes env rest (printErr err st)

/-- The `Action` of the `networks` command. -/
def networksAction (env : Env) (host : String) (force : Bool) (st : State) :
    Result (Option ExitError) × State :=
  andThen (validate env host st) fun _ st =>
    andThen (verifyOK force st) fun ok st =>
      if !ok then (.ok (some declined), st)
      else
        andThen (SwarmNodes env host st) fun nodes st =>
          andThen (networksNodes env nodes st) fun _ st => (.ok none, st)

/-- The node loop of the `df` command. -/
def dfNodes (env : Env) (verbose : Bool) : List Node → State → Result Unit × State
  | [], st => (.ok (), st)
  | node :: rest, st =>
    let st := st.emit (.println ("########## " ++ " " ++ node.Hostname ++ " " ++ " " ++ " " ++ node.Role))
    andThen (df env (nodeAddr node) verbose st) fun err st =>
      let st := printErr err st
      dfNodes env verbose rest (st.emit (.println "#############################################"))

/-- The `Action` of the `df` command. -/
def dfAction (env : Env) (host : String) (verbose : Bool) (st : State) :
    Result (Option ExitError) × State :=
  andThen (validate env host st) fun _ st =>
    andThen (SwarmNodes env host st) fun nodes st =>
      andThen (dfNodes env verbose nodes st) fun _ st => (.ok none, st)

/-- The command line after the global flags: the chosen command with its own flags. -/
inductive Command where
  | system (force all : Bool)
  | containers (force : Bool)
  | images (force all : Bool)
  | volumes (force : Bool)
  | networks (force : Bool)
  | df (verbose : Bool)
deriving DecidableEq, Repr

/-- Go `app.Run(os.Args)` once the flags are parsed: the `Action` of the chosen command
runs with the package variable `host`. -/
def run (env : Env) (g : Globals) (cmd : Command) (st : State) :
    Result (Option ExitError) × State :=
  match cmd with
  | .system force all => systemAction env g.host force all st
  | .containers force => containersAction env g.host force st
  | .images force all => imagesAction env g.host force all st
  | .volumes force => volumesAction env g.host force st
  | .networks force => networksAction env g.host force st
  | .df verbose => dfAction env g.host verbose st

/-- The exit status of the process: 0 when the `Action` returns nil, the code of the
exit error it returns (the command line library ends the process with it), the
argument of `os.Exit`, and 2 for a panic that nothing recovers (the Go runtime). -/
def exitStatus : Result (Option ExitError) → Nat
  | .ok none => 0
  | .ok (some e) => e.exitCode
  | .exit code => code
  | .panic _ => 2

/-! ## The shape shared by the commands

Every `Action` is the same guard (role check, confirmation, node list) followed by a
body that differs from command to command. -/

/-- The guard in front of `body`: `validate`, then `verifyOK`, then `SwarmNodes`. -/
def guarded (env : Env) (host : String) (force : Bool)
    (body : List Node → State → Result (Option ExitError) × State) (st : State) :
    Result (Option ExitError) × State :=
  andThen (validate env host st) fun _ st =>
    andThen (verifyOK force st) fun ok st =>
      if !ok then (.ok (some declined), st)
      else andThen (SwarmNodes env host st) body

/-- The part of each `Action` that follows the call of `SwarmNodes`. -/
def body (env : Env) : Command → List Node → State → Result (Option ExitError) × State
  | .system _ all => fun nodes st =>
    andThen (systemNodes env all nodes 0 st) fun totalSpaceReclaimed st =>
      (.ok none, st.emit (.printlnSize "\n  Total Swarm reclaimed space:" totalSpaceReclaimed))
  | .containers _ => fun nodes st =>
    andThen (singleNodes (containerPrune env) nodes 0 st) fun totalSpaceReclaimed st =>
      (.ok none, st.emit (.printlnSize "\n    Total Swarm reclaimed space:" totalSpaceReclaimed))
  | .images _ all => fun nodes st =>
    andThen (singleNodes (fun addr => imagePrune env addr all) nodes 0 st)
      fun totalSpaceReclaimed st =>
        (.ok none, st.emit (.printlnSize "\n    Total Swarm reclaimed space:" totalSpaceReclaimed))
  | .volumes _ => fun nodes st =>
    andThen (singleNodes (volumePrune env) nodes 0 st) fun totalSpaceReclaimed st =>
      (.ok none, st.emit (.printlnSize "\n    Total Swarm reclaimed space:" totalSpaceReclaimed))
  | .networks _ => fun nodes st =>
    andThen (networksNodes env nodes st) fun _ st => (.ok none, st)
  | .df verbose => fun nodes st =>
    andThen (dfNodes env verbose nodes st) fun _ st => (.ok none, st)

/-- The value of the `--force` flag of a command; `df` has no confirmation step, which
is how a forced run behaves. -/
def Command.force : Command → Bool
  | .system force _ => force
  | .containers force => force
  | .images force _ => force
  | .volumes force => force
  | .networks force => force
  | .df _ => true

/-- The commands that print a grand total: `system`, `containers`, `images`, `volumes`. -/
def Command.hasTotal : Command → Bool
  | .system _ _ => true
  | .containers _ => true
  | .images _ _ => true
  | .volumes _ => true
  | .networks _ => false
  | .df _ => false

/-! ## Observations on traces -/

/-- The prune requests: the four destructive calls. -/
def Request.isPrune : Request → Bool
  | .ContainersPrune => true
  | .ImagesPrune _ => true
  | .NetworksPrune => true
  | .VolumesPrune => true
  | _ => false

/-- The remote calls of a trace, in order, each as the address of the client handle
used and the request. -/
def calls (tr : List Event) : List (String × Request) :=
  tr.filterMap fun e =>
    match e with
    | .call c r => some (c.host, r)
    | _ => none

/-- The prune calls of a trace, in order. -/
def pruneCalls (tr : List Event) : List (String × Request) :=
  (calls tr).filter fun x => x.2.isPrune

/-- The image prune calls of a trace, in order. -/
def imagePruneCalls (tr : List Event) : List (String × Request) :=
  (calls tr).filter fun x =>
    match x.2 with
    | .ImagesPrune _ => true
    | _ => false

/-- The byte counts of the per-node lines `Node reclaimed space:` of a trace, in order. -/
def nodeSubtotals (tr : List Event) : List Nat :=
  tr.filterMap fun e =>
    match e with
    | .printlnSize label bytes =>
      if label = "  Node reclaimed space:" then some bytes else none
    | _ => none

/-- The byte counts of the lines `Total Swarm reclaimed space:` of a trace, in order. -/
def grandTotals (tr : List Event) : List Nat :=
  tr.filterMap fun e =>
    match e with
    | .printlnSize label bytes =>
      if label = "\n  Total Swarm reclaimed space:" ∨
          label = "\n    Total Swarm reclaimed space:" then some bytes else none
    | _ => none

/-- The event is a line that reports a byte count. -/
def Event.isSize : Event → Bool
  | .printlnSize _ _ => true
  | _ => false

/-- The step of a run an event belongs to: 0 for the queries of the role check, 1 for
the confirmation prompt, 2 for the node list call, 3 for the per-node calls; console
output other than the prompt belongs to no step. -/
def phase : Event → Option Nat
  | .call _ .Info => some 0
  | .call _ (.NodeInspectWithRaw _) => some 0
  | .prompt _ => some 1
  | .call _ .NodeList => some 2
  | .call _ .ContainersPrune => some 3
  | .call _ (.ImagesPrune _) => some 3
  | .call _ .NetworksPrune => some 3
  | .call _ .VolumesPrune => some 3
  | .call _ .DiskUsage => some 3
  | _ => none

/-- The four prune calls the `system` command issues for one node. -/
def systemCalls (all : Bool) (node : Node) : List (String × Request) :=
  [(nodeAddr node, .ContainersPrune), (nodeAddr node, .ImagesPrune (!all)),
   (nodeAddr node, .NetworksPrune), (nodeAddr node, .VolumesPrune)]

/-- The byte count `containerPrune` returns for an answer of the remote call: 0 for an
error and for a report that lists no deleted container, else the reported count. -/
def containersBytes : Except String ContainersPruneReport → Nat
  | .error _ => 0
  | .ok report => if report.ContainersDeleted.length > 0 then report.SpaceReclaimed else 0

/-- The byte count `imagePrune` returns for an answer of the remote call: 0 for an error
and for a report that lists no deleted image, else the reported count (as a `uint64`). -/
def imagesBytes : Except String ImagesPruneReport → Nat
  | .error _ => 0
  | .ok report => if report.ImagesDeleted.length > 0 then report.SpaceReclaimed % 2 ^ 64 else 0

/-- The byte count `volumePrune` returns for an answer of the remote call: 0 for an error
and for a report that lists no deleted volume, else the reported count. -/
def volumesBytes : Except String VolumesPruneReport → Nat
  | .error _ => 0
  | .ok report => if report.VolumesDeleted.length > 0 then report.SpaceReclaimed else 0

/-- The role check confirms a manager: the info query and the node inspect query both
succeed, the inspected node has a manager status and its role is "manager".  The
queries are issued through `cli`, the first one after the trace `tr`. -/
def confirmsManager (env : Env) (cli : Client) (tr : List Event) : Bool :=
  match env.Info tr cli with
  | .error _ => false
  | .ok info =>
    match env.NodeInspectWithRaw (tr ++ [.call cli .Info]) cli info.SwarmNodeID with
    | .error _ => false
    | .ok node => node.ManagerStatus.isSome && decide (node.Role = "manager")

/-- The answer standard input gives to the prompt: the first line that is "y" or "N"
once white space is trimmed (`some true` for "y", `some false` for "N"), or `none` when
the input ends before such a line. -/
def firstAnswer : List String → Option Bool
  | [] => none
  | line :: rest =>
    if TrimSpace line = "y" then some true
    else if TrimSpace line = "N" then some false
    else firstAnswer rest

/-- The number of times `askToConfirm` prints the prompt for a given input: once before
every line it reads, up to the first line that is "y" or "N" once trimmed, and once
before the read that meets the end of the input. -/
def promptCount : List String → Nat
  | [] => 1
  | line :: rest =>
    if TrimSpace line = "y" ∨ TrimSpace line = "N" then 1 else promptCount rest + 1

/-- The texts of the prompts of a trace, in order. -/
def prompts (tr : List Event) : List String :=
  tr.filterMap fun e =>
    match e with
    | .prompt s => some s
    | _ => none

/-- A connection can be built to the address of the node. -/
def canConnect (env : Env) (n : Node) : Bool :=
  match DockerClient env (nodeAddr n) with
  | .ok _ => true
  | _ => false

/-- The run passes the guard: from `st0` the role check returns, the confirmation is
given and the node list call answers `nodes`, leaving the state `st3`. -/
def passesGuard (env : Env) (host : String) (force : Bool) (st0 : State) (nodes : List Node)
    (st3 : State) : Prop :=
  ∃ st1 st2, validate env host st0 = (.ok (), st1) ∧ verifyOK force st1 = (.ok true, st2) ∧
    SwarmNodes env host st2 = (.ok nodes, st3)

/-- A connection can be built to the address of every node of the list. -/
def connects (env : Env) (nodes : List Node) : Prop :=
  ∀ n ∈ nodes, ∃ c, DockerClient env (nodeAddr n) = .ok c

/-- The state `st2` continues `st1`: same unread input, and the trace of `st2` is the
trace of `st1` followed by events that belong to step `k` or to no step. -/
def Adds (k : Nat) (st1 st2 : State) : Prop :=
  st2.stdin = st1.stdin ∧
    ∃ evs, st2.trace = st1.trace ++ evs ∧ ∀ e ∈ evs, ∀ p, phase e = some p → p = k

/-- The trace is in step order and holds no event of a step after `k`: the steps of
its events, in order, never decrease and are at most `k`. -/
def Ordered (k : Nat) (tr : List Event) : Prop :=
  List.Pairwise (fun a b => a ≤ b) (tr.filterMap phase) ∧ ∀ p ∈ tr.filterMap phase, p ≤ k

/-! ## Concrete environments -/

/-- A manager node. -/
def nodeA : Node := ⟨"id-a", "node-a", "manager", some ⟨true, "reachable", "10.0.0.1:2377"⟩⟩

/-- A worker node. -/
def nodeB : Node := ⟨"id-b", "node-b", "worker", none⟩

/-- A swarm of two nodes reached from the manager `node-a`: on `node-a` the container
prune removes one container of 1048576 bytes and nothing else is removed, on `node-b`
every call fails. -/
def scenarioEnv : Env where
  GOOS := "linux"
  Getenv := fun _ => ""
  tlsconfigClient := fun o => .ok ⟨o.InsecureSkipVerify, [o.CAFile], [o.CertFile]⟩
  ParseHost := fun h => .ok ("tcp", h, "")
  NewClientError := fun _ _ _ _ => none
  Info := fun _ _ => .ok ⟨"id-a"⟩
  NodeInspectWithRaw := fun _ _ _ => .ok nodeA
  NodeList := fun _ _ => .ok [nodeA, nodeB]
  ContainersPrune := fun _ c =>
    if c.host = "tcp://node-a:2375" then .ok ⟨["c1"], 1048576⟩ else .error "transport error"
  ImagesPrune := fun _ c _ =>
    if c.host = "tcp://node-a:2375" then .ok ⟨[], 0⟩ else .error "transport error"
  NetworksPrune := fun _ c =>
    if c.host = "tcp://node-a:2375" then .ok ⟨[]⟩ else .error "transport error"
  VolumesPrune := fun _ c =>
    if c.host = "tcp://node-a:2375" then .ok ⟨[], 0⟩ else .error "transport error"
  DiskUsage := fun _ _ => .error "transport error"

/-- The swarm of `scenarioEnv` with other answers to the prune calls: every image prune
removes one image of 5 bytes, and the container, network and volume prunes fail. -/
def imageOnlyEnv : Env :=
  { scenarioEnv with
    ContainersPrune := fun _ _ => .error "transport error"
    ImagesPrune := fun _ _ _ => .ok ⟨[⟨"", "sha256:0a"⟩], 5⟩
    NetworksPrune := fun _ _ => .error "transport error"
    VolumesPrune := fun _ _ => .error "transport error" }

/-- The swarm of `scenarioEnv` with a node list call that fails. -/
def noListEnv : Env :=
  { scenarioEnv with NodeList := fun _ _ => .error "This node is not a swarm manager." }

/-- The swarm of `scenarioEnv` reached from the worker `node-b`. -/
def workerEnv : Env :=
  { scenarioEnv with
    Info := fun _ _ => .ok ⟨"id-b"⟩
    NodeInspectWithRaw := fun _ _ _ => .ok nodeB }

/-- A node whose host name holds a blank. -/
def nodeBad : Node := ⟨"id-c", "bad host", "worker", none⟩

/-- The swarm of `scenarioEnv` with a third node, listed second, whose address the client
library cannot parse; the calls on `node-a` and `node-b` answer as in `scenarioEnv`. -/
def badHostEnv : Env :=
  { scenarioEnv with
    ParseHost := fun h =>
      if h = "tcp://bad host:2375" then .error "invalid character in host name"
      else .ok ("tcp", h, "")
    NodeList := fun _ _ => .ok [nodeA, nodeBad, nodeB] }

/-- The package variables of a run against the manager of `scenarioEnv`. -/
def scenarioGlobals : Globals := ⟨"tcp://node-a:2375", Options.zero⟩

/-- Options naming three credential files. -/
def fullOptions : Options := ⟨"ca.pem", "cert.pem", "key.pem", false⟩

/-! ## Lemmas: sequencing and connections -/

@[simp]
theorem andThen_ok {α β : Type} (a : α) (st : State) (f : α → State → Result β × State) :
    andThen (.ok a, st) f = f a st := rfl

@[simp]
theorem andThen_exit {α β : Type} (c : Nat) (st : State) (f : α → State → Result β × State) :
    andThen (.exit c, st) f = (.exit c, st) := rfl

@[simp]
theorem andThen_panic {α β : Type} (e : String) (st : State)
    (f : α → State → Result β × State) :
    andThen (.panic e, st) f = (.panic e, st) := rfl

theorem DockerClient_cases (env : Env) (host : String) :
    (∃ c, DockerClient env host = .ok c) ∨ (∃ e, DockerClient env host = .panic e) := by
  unfold DockerClient
  dsimp only
  cases h : NewDockerClient env host Options.zero with
  | error e => exact Or.inr ⟨e, rfl⟩
  | ok c => exact Or.inl ⟨c, rfl⟩

theorem tlsOptionsPassed_zero : tlsOptionsPassed Options.zero = none := by
  simp [tlsOptionsPassed, Options.zero]

theorem newHTTPClient_none {env : Env} {host : String} {h : HTTPClient}
    (hh : newHTTPClient env host none = .ok h) : h.Transport.TLSClientConfig = none := by
  unfold newHTTPClient at hh
  dsimp only at hh
  cases hp : env.ParseHost host with
  | error e => rw [hp] at hh; cases hh
  | ok p =>
    obtain ⟨proto, addr, base⟩ := p
    rw [hp] at hh
    cases hh
    rfl

theorem NewDockerClient_ok {env : Env} {host : String} {tls : Options} {c : Client}
    (h : NewDockerClient env host tls = .ok c) :
    c.host = host ∧ newHTTPClient env host (tlsOptionsPassed tls) = .ok c.client := by
  unfold NewDockerClient at h
  dsimp only at h
  cases hh : newHTTPClient env host (tlsOptionsPassed tls) with
  | error e => rw [hh] at h; cases h
  | ok hc =>
    rw [hh] at h
    dsimp only at h
    split at h
    · cases h
    · cases h
      exact ⟨rfl, rfl⟩

theorem DockerClient_ok {env : Env} {host : String} {c : Client}
    (h : DockerClient env host = .ok c) :
    c.host = host ∧ c.client.Transport.TLSClientConfig = none := by
  unfold DockerClient at h
  dsimp only at h
  cases hn : NewDockerClient env host Options.zero with
  | error e => rw [hn] at h; cases h
  | ok d =>
    rw [hn] at h
    cases h
    have := NewDockerClient_ok hn
    rw [tlsOptionsPassed_zero] at this
    exact ⟨this.1, newHTTPClient_none this.2⟩

/-! ## Lemmas: the per-node operations -/

theorem printErr_eq (err : Option String) (st : State) :
    printErr err st = ⟨st.trace ++ err.toList.map Event.println, st.stdin⟩ := by
  cases err <;> simp [printErr, State.emit]

theorem containerPrune_ok {env : Env} {host : String} {cli : Client}
    (h : DockerClient env host = .ok cli) (st : State) :
    ∃ (sr : Nat) (err : Option String) (ss : List String), containerPrune env host st =
      (.ok (sr, err),
        ⟨st.trace ++ Event.call cli .ContainersPrune :: ss.map Event.println, st.stdin⟩)
      ∧ (err ≠ none → sr = 0) := by
  unfold containerPrune
  rw [h]
  simp only [State.emit]
  cases env.ContainersPrune st.trace cli with
  | error err => exact ⟨0, some err, [], by simp, fun _ => rfl⟩
  | ok report =>
    by_cases hl : report.ContainersDeleted.length > 0
    · exact ⟨report.SpaceReclaimed, none, [report.ContainersDeleted.foldl
        (fun out id => out ++ "        " ++ id ++ "\n") "\n    Deleted Containers:"],
        by simp [hl], by simp⟩
    · exact ⟨0, none, ["\n    No Containers Deleted\n"], by simp [hl], by simp⟩

theorem volumePrune_ok {env : Env} {host : String} {cli : Client}
    (h : DockerClient env host = .ok cli) (st : State) :
    ∃ (sr : Nat) (err : Option String) (ss : List String), volumePrune env host st =
      (.ok (sr, err),
        ⟨st.trace ++ Event.call cli .VolumesPrune :: ss.map Event.println, st.stdin⟩)
      ∧ (err ≠ none → sr = 0) := by
  unfold volumePrune
  rw [h]
  simp only [State.emit]
  cases env.VolumesPrune st.trace cli with
  | error err => exact ⟨0, some err, [], by simp, fun _ => rfl⟩
  | ok report =>
    by_cases hl : report.VolumesDeleted.length > 0
    · exact ⟨report.SpaceReclaimed, none, [report.VolumesDeleted.foldl
        (fun out id => out ++ id ++ "\n") "     Deleted Volumes:\n"],
        by simp [hl], by simp⟩
    · exact ⟨0, none, ["\n    No Volumes Deleted\n"], by simp [hl], by simp⟩

theorem imagePrune_ok {env : Env} {host : String} {cli : Client} (all : Bool)
    (h : DockerClient env host = .ok cli) (st : State) :
    ∃ (sr : Nat) (err : Option String) (ss : List String), imagePrune env host all st =
      (.ok (sr, err),
        ⟨st.trace ++ Event.call cli (.ImagesPrune (!all)) :: ss.map Event.println, st.stdin⟩)
      ∧ (err ≠ none → sr = 0) := by
  unfold imagePrune
  rw [h]
  simp only [State.emit]
  cases env.ImagesPrune st.trace cli (!all) with
  | error err => exact ⟨0, some err, [], by simp, fun _ => rfl⟩
  | ok report =>
    by_cases hl : report.ImagesDeleted.length > 0
    · exact ⟨addU64 0 report.SpaceReclaimed, none, [report.ImagesDeleted.foldl
          (fun out im =>
            if im.Untagged ≠ "" then out ++ ("        untagged:" ++ " " ++ im.Untagged ++ "\n")
            else out ++ ("        deleted:" ++ " " ++ im.Deleted ++ "\n"))
          "\n    Deleted Images:\n"],
        by simp [hl], by simp⟩
    · exact ⟨0, none, ["\n    No Images Deleted\n"], by simp [hl], by simp⟩

theorem networkPrune_ok {env : Env} {host : String} {cli : Client}
    (h : DockerClient env host = .ok cli) (st : State) :
    ∃ (err : Option String) (ss : List String), networkPrune env host st =
      (.ok err,
        ⟨st.trace ++ Event.call cli .NetworksPrune :: ss.map Event.println, st.stdin⟩) := by
  unfold networkPrune
  rw [h]
  simp only [State.emit]
  cases env.NetworksPrune st.trace cli with
  | error err => exact ⟨some err, [], by simp⟩
  | ok report =>
    by_cases hl : report.NetworksDeleted.length > 0
    · exact ⟨none, [report.NetworksDeleted.foldl
        (fun out id => out ++ "        " ++ id ++ "\n") "    Deleted Networks:\n"],
        by simp [hl]⟩
    · exact ⟨none, ["\n    No Networks Deleted\n"], by simp [hl]⟩

theorem df_ok {env : Env} {host : String} {cli : Client} (verbose : Bool)
    (h : DockerClient env host = .ok cli) (st : State) :
    ∃ (err : Option String) (evs : List Event), df env host verbose st =
      (.ok err, ⟨st.trace ++ Event.call cli .DiskUsage :: evs, st.stdin⟩) ∧
      ∀ e ∈ evs, phase e = none := by
  unfold df
  rw [h]
  simp only [State.emit]
  cases env.DiskUsage st.trace cli with
  | error err => exact ⟨some err, [], by simp, by simp⟩
  | ok du => exact ⟨none, [.diskUsageWrite du verbose], by simp, by simp [phase]⟩

theorem containerPrune_panic {env : Env} {host e : String}
    (h : DockerClient env host = .panic e) (st : State) :
    containerPrune env host st = (.panic e, st) := by
  unfold containerPrune; rw [h]

theorem volumePrune_panic {env : Env} {host e : String}
    (h : DockerClient env host = .panic e) (st : State) :
    volumePrune env host st = (.panic e, st) := by
  unfold volumePrune; rw [h]

theorem imagePrune_panic {env : Env} {host e : String} (all : Bool)
    (h : DockerClient env host = .panic e) (st : State) :
    imagePrune env host all st = (.panic e, st) := by
  unfold imagePrune; rw [h]

theorem networkPrune_panic {env : Env} {host e : String}
    (h : DockerClient env host = .panic e) (st : State) :
    networkPrune env host st = (.panic e, st) := by
  unfold networkPrune; rw [h]

theorem df_panic {env : Env} {host e : String} (verbose : Bool)
    (h : DockerClient env host = .panic e) (st : State) :
    df env host verbose st = (.panic e, st) := by
  unfold df; rw [h]

/-! ## Lemmas: observations on traces -/

theorem calls_append (a b : List Event) : calls (a ++ b) = calls a ++ calls b := by
  simp [calls, List.filterMap_append]

theorem nodeSubtotals_append (a b : List Event) :
    nodeSubtotals (a ++ b) = nodeSubtotals a ++ nodeSubtotals b := by
  simp [nodeSubtotals, List.filterMap_append]

theorem grandTotals_append (a b : List Event) :
    grandTotals (a ++ b) = grandTotals a ++ grandTotals b := by
  simp [grandTotals, List.filterMap_append]

theorem pruneCalls_append (a b : List Event) :
    pruneCalls (a ++ b) = pruneCalls a ++ pruneCalls b := by
  simp [pruneCalls, calls_append]

theorem imagePruneCalls_append (a b : List Event) :
    imagePruneCalls (a ++ b) = imagePruneCalls a ++ imagePruneCalls b := by
  simp [imagePruneCalls, calls_append]

@[simp]
theorem calls_nil : calls [] = [] := rfl

@[simp]
theorem calls_cons_call (c : Client) (r : Request) (l : List Event) :
    calls (.call c r :: l) = (c.host, r) :: calls l := rfl

@[simp]
theorem calls_cons_println (s : String) (l : List Event) :
    calls (.println s :: l) = calls l := rfl

@[simp]
theorem calls_cons_printlnSize (s : String) (b : Nat) (l : List Event) :
    calls (.printlnSize s b :: l) = calls l := rfl

@[simp]
theorem nodeSubtotals_nil : nodeSubtotals [] = [] := rfl

@[simp]
theorem nodeSubtotals_cons_call (c : Client) (r : Request) (l : List Event) :
    nodeSubtotals (.call c r :: l) = nodeSubtotals l := rfl

@[simp]
theorem nodeSubtotals_cons_println (s : String) (l : List Event) :
    nodeSubtotals (.println s :: l) = nodeSubtotals l := rfl

@[simp]
theorem nodeSubtotals_cons_node (b : Nat) (l : List Event) :
    nodeSubtotals (.printlnSize "  Node reclaimed space:" b :: l) = b :: nodeSubtotals l := by
  simp [nodeSubtotals]

@[simp]
theorem grandTotals_nil : grandTotals [] = [] := rfl

@[simp]
theorem grandTotals_cons_call (c : Client) (r : Request) (l : List Event) :
    grandTotals (.call c r :: l) = grandTotals l := rfl

@[simp]
theorem grandTotals_cons_println (s : String) (l : List Event) :
    grandTotals (.println s :: l) = grandTotals l := rfl

@[simp]
theorem grandTotals_cons_node (b : Nat) (l : List Event) :
    grandTotals (.printlnSize "  Node reclaimed space:" b :: l) = grandTotals l := by
  simp [grandTotals]

theorem calls_prints (ss : List String) : calls (ss.map Event.println) = [] := by
  induction ss with
  | nil => rfl
  | cons s ss ih => simp [calls, ih]

theorem nodeSubtotals_prints (ss : List String) :
    nodeSubtotals (ss.map Event.println) = [] := by
  induction ss with
  | nil => rfl
  | cons s ss ih => simp [nodeSubtotals, ih]

theorem grandTotals_prints (ss : List String) :
    grandTotals (ss.map Event.println) = [] := by
  induction ss with
  | nil => rfl
  | cons s ss ih => simp [grandTotals, ih]

theorem phase_prints (ss : List String) : ∀ e ∈ ss.map Event.println, phase e = none := by
  intro e he
  obtain ⟨s, _, rfl⟩ := List.mem_map.1 he
  rfl

/-! ## Lemmas: the node loops when every connection can be built -/

theorem singleNode_ok (op : String → State → Result (Nat × Option String) × State)
    (req : Request) (n : Node)
    (hop : ∀ st : State, ∃ (cli : Client) (sr : Nat) (err : Option String)
      (ss : List String), cli.host = nodeAddr n ∧ op (nodeAddr n) st =
        (.ok (sr, err), ⟨st.trace ++ Event.call cli req :: ss.map Event.println, st.stdin⟩))
    (total : Nat) (st : State) :
    ∃ (sr : Nat) (evs : List Event),
      singleNode op n total st = (.ok (addU64 total sr), ⟨st.trace ++ evs, st.stdin⟩) ∧
      nodeSubtotals evs = [sr] ∧ grandTotals evs = [] ∧ calls evs = [(nodeAddr n, req)] := by
  obtain ⟨cli, sr, err, ss, hhost, hrun⟩ := hop (st.emit (.println (nodeHeader n)))
  refine ⟨sr, (Event.println (nodeHeader n) :: Event.call cli req ::
      ss.map Event.println) ++ err.toList.map Event.println ++
      [Event.printlnSize "  Node reclaimed space:" sr], ?_, ?_, ?_, ?_⟩
  · simp only [singleNode, hrun, andThen_ok]
    simp [printErr_eq, State.emit, List.append_assoc]
  · simp [nodeSubtotals_append, nodeSubtotals_prints]
  · simp [grandTotals_append, grandTotals_prints]
  · simp [calls_append, calls_prints, hhost]

theorem singleNodes_ok (op : String → State → Result (Nat × Option String) × State)
    (req : Request) (nodes : List Node)
    (hop : ∀ n ∈ nodes, ∀ st : State, ∃ (cli : Client) (sr : Nat) (err : Option String)
      (ss : List String), cli.host = nodeAddr n ∧ op (nodeAddr n) st =
        (.ok (sr, err), ⟨st.trace ++ Event.call cli req :: ss.map Event.println, st.stdin⟩))
    (total : Nat) (st : State) :
    ∃ (subs : List Nat) (evs : List Event),
      singleNodes op nodes total st =
        (.ok (subs.foldl addU64 total), ⟨st.trace ++ evs, st.stdin⟩) ∧
      subs.length = nodes.length ∧ nodeSubtotals evs = subs ∧ grandTotals evs = [] ∧
      calls evs = nodes.map fun n => (nodeAddr n, req) := by
  induction nodes generalizing total st with
  | nil => exact ⟨[], [], by simp [singleNodes], rfl, rfl, rfl, rfl⟩
  | cons n rest ih =>
    obtain ⟨sr, evs1, hone, hsub1, hgt1, hcalls1⟩ :=
      singleNode_ok op req n (hop n (List.mem_cons_self _ _)) total st
    obtain ⟨subs, evs, hrest, hlen, hsub, hgt, hcalls⟩ :=
      ih (fun m hm => hop m (List.mem_cons_of_mem _ hm)) (addU64 total sr)
        ⟨st.trace ++ evs1, st.stdin⟩
    refine ⟨sr :: subs, evs1 ++ evs, ?_, ?_, ?_, ?_, ?_⟩
    · simp only [singleNodes, hone, andThen_ok, hrest]
      simp [List.append_assoc]
    · simp [hlen]
    · simp [nodeSubtotals_append, hsub, hsub1]
    · simp [grandTotals_append, hgt, hgt1]
    · simp [calls_append, hcalls, hcalls1]

theorem systemNode_ok (env : Env) (all : Bool) (n : Node) {cli : Client}
    (h : DockerClient env (nodeAddr n) = .ok cli) (total : Nat) (st : State) :
    ∃ (sub : Nat) (evs : List Event),
      systemNode env all n total st = (.ok (addU64 total sub), ⟨st.trace ++ evs, st.stdin⟩) ∧
      nodeSubtotals evs = [sub] ∧ grandTotals evs = [] ∧ calls evs = systemCalls all n := by
  have hhost := (DockerClient_ok h).1
  obtain ⟨c, ec, s1, h1, _⟩ := containerPrune_ok h (st.emit (.println (nodeHeader n)))
  obtain ⟨i, ei, s2, h2, _⟩ := imagePrune_ok all h
    (printErr ec ⟨(st.emit (.println (nodeHeader n))).trace ++
      Event.call cli .ContainersPrune :: s1.map Event.println, st.stdin⟩)
  obtain ⟨en, s3, h3⟩ := networkPrune_ok h
    (printErr ei ⟨(printErr ec ⟨(st.emit (.println (nodeHeader n))).trace ++
      Event.call cli .ContainersPrune :: s1.map Event.println, st.stdin⟩).trace ++
      Event.call cli (.ImagesPrune (!all)) :: s2.map Event.println, st.stdin⟩)
  obtain ⟨v, ev, s4, h4, _⟩ := volumePrune_ok h
    (printErr en ⟨(printErr ei ⟨(printErr ec ⟨(st.emit (.println (nodeHeader n))).trace ++
      Event.call cli .ContainersPrune :: s1.map Event.println, st.stdin⟩).trace ++
      Event.call cli (.ImagesPrune (!all)) :: s2.map Event.println, st.stdin⟩).trace ++
      Event.call cli .NetworksPrune :: s3.map Event.println, st.stdin⟩)
  refine ⟨addU64 (addU64 (addU64 (addU64 0 c) i) i) v,
    (Event.println (nodeHeader n) :: Event.call cli .ContainersPrune :: s1.map Event.println) ++
    ec.toList.map Event.println ++
    (Event.call cli (.ImagesPrune (!all)) :: s2.map Event.println) ++
    ei.toList.map Event.println ++
    (Event.call cli .NetworksPrune :: s3.map Event.println) ++
    en.toList.map Event.println ++
    (Event.call cli .VolumesPrune :: s4.map Event.println) ++
    ev.toList.map Event.println ++
    [Event.printlnSize "  Node reclaimed space:" (addU64 (addU64 (addU64 (addU64 0 c) i) i) v)],
    ?_, ?_, ?_, ?_⟩
  · unfold systemNode
    simp only [State.emit, printErr_eq] at h1 h2 h3 h4 ⊢
    simp only [h1, andThen_ok, h2, h3, h4]
    simp [List.append_assoc]
  · simp [nodeSubtotals_append, nodeSubtotals_prints]
  · simp [grandTotals_append, grandTotals_prints]
  · simp [calls_append, calls_prints, hhost, systemCalls]

theorem systemNodes_ok (env : Env) (all : Bool) (nodes : List Node) (hc : connects env nodes)
    (total : Nat) (st : State) :
    ∃ (subs : List Nat) (evs : List Event),
      systemNodes env all nodes total st =
        (.ok (subs.foldl addU64 total), ⟨st.trace ++ evs, st.stdin⟩) ∧
      subs.length = nodes.length ∧ nodeSubtotals evs = subs ∧ grandTotals evs = [] ∧
      calls evs = nodes.flatMap (systemCalls all) := by
  induction nodes generalizing total st with
  | nil => exact ⟨[], [], by simp [systemNodes], rfl, rfl, rfl, rfl⟩
  | cons n rest ih =>
    obtain ⟨cli, hcli⟩ := hc n (List.mem_cons_self _ _)
    obtain ⟨sr, evs1, hone, hsub1, hgt1, hcalls1⟩ := systemNode_ok env all n hcli total st
    obtain ⟨subs, evs, hrest, hlen, hsub, hgt, hcalls⟩ :=
      ih (fun m hm => hc m (List.mem_cons_of_mem _ hm)) (addU64 total sr)
        ⟨st.trace ++ evs1, st.stdin⟩
    refine ⟨sr :: subs, evs1 ++ evs, ?_, ?_, ?_, ?_, ?_⟩
    · simp only [systemNodes, hone, andThen_ok, hrest]
      simp [List.append_assoc]
    · simp [hlen]
    · simp [nodeSubtotals_append, hsub, hsub1]
    · simp [grandTotals_append, hgt, hgt1]
    · simp [calls_append, hcalls, hcalls1, List.flatMap_cons]

/-! ## Lemmas: the guard -/

theorem validate_panic {env : Env} {host e : String} (h : DockerClient env host = .panic e)
    (st : State) : validate env host st = (.panic e, st) := by
  simp [validate, amISwarmManager, h]

theorem validate_cli {env : Env} {host : String} {cli : Client}
    (h : DockerClient env host = .ok cli) (st : State) :
    ∃ evs : List Event,
      validate env host st =
        ((if confirmsManager env cli st.trace then .ok () else .exit 1),
          ⟨st.trace ++ evs, st.stdin⟩) ∧
      (∀ e ∈ evs, ∀ p, phase e = some p → p = 0) ∧ ∀ e ∈ evs, e.isSize = false := by
  unfold validate amISwarmManager confirmsManager
  rw [h]
  simp only [State.emit]
  cases env.Info st.trace cli with
  | error err =>
    exact ⟨[.call cli .Info, .println ("ERROR: " ++ " " ++ err)], by simp, by simp [phase], by simp [Event.isSize]⟩
  | ok info =>
    dsimp only
    cases hni : env.NodeInspectWithRaw (st.trace ++ [Event.call cli Request.Info]) cli
        info.SwarmNodeID with
    | error err =>
      exact ⟨[.call cli .Info, .call cli (.NodeInspectWithRaw info.SwarmNodeID),
        .println ("ERROR: " ++ " " ++ err)], by simp, by simp [phase], by simp [Event.isSize]⟩
    | ok node =>
      by_cases hm : node.ManagerStatus = none
      · exact ⟨[.call cli .Info, .call cli (.NodeInspectWithRaw info.SwarmNodeID),
          .println "ERROR: This script needs to run on a swarm manager."],
          by simp [hm], by simp [phase], by simp [Event.isSize]⟩
      · by_cases hr : node.Role = "manager"
        · exact ⟨[.call cli .Info, .call cli (.NodeInspectWithRaw info.SwarmNodeID)],
            by simp [hm, hr, Option.isSome_iff_ne_none], by simp [phase], by simp [Event.isSize]⟩
        · exact ⟨[.call cli .Info, .call cli (.NodeInspectWithRaw info.SwarmNodeID),
            .println ("ERROR: " ++ " " ++ "Node is NOT a manager")],
            by simp [hm, hr], by simp [phase], by simp [Event.isSize]⟩

theorem validate_ok_inv {env : Env} {host : String} {st st1 : State}
    (h : validate env host st = (.ok (), st1)) :
    ∃ cli, DockerClient env host = .ok cli ∧ confirmsManager env cli st.trace = true := by
  rcases DockerClient_cases env host with ⟨cli, hc⟩ | ⟨e, he⟩
  · obtain ⟨evs, hv, _, _⟩ := validate_cli hc st
    refine ⟨cli, hc, ?_⟩
    rw [hv] at h
    by_cases hm : confirmsManager env cli st.trace = true
    · exact hm
    · simp [hm] at h
  · rw [validate_panic he] at h
    cases h

theorem askToConfirmLoop_spec (s : String) (lines : List String) (tr : List Event) :
    ∃ (evs : List Event) (rest : List String),
      askToConfirmLoop s lines tr =
        ((match firstAnswer lines with
          | some b => .ok b
          | none => .exit 1), ⟨tr ++ evs, rest⟩) ∧
      (∀ e ∈ evs, ∀ p, phase e = some p → p = 1) ∧ ∀ e ∈ evs, e.isSize = false := by
  induction lines generalizing tr with
  | nil =>
    exact ⟨[.prompt (s ++ " [y/N]: "), .logFatal "EOF"], [], by simp [askToConfirmLoop, firstAnswer],
      by simp [phase], by simp [Event.isSize]⟩
  | cons line rest ih =>
    by_cases hy : TrimSpace line = "y"
    · exact ⟨[.prompt (s ++ " [y/N]: ")], rest, by simp [askToConfirmLoop, firstAnswer, hy],
        by simp [phase], by simp [Event.isSize]⟩
    · by_cases hn : TrimSpace line = "N"
      · exact ⟨[.prompt (s ++ " [y/N]: ")], rest, by simp [askToConfirmLoop, firstAnswer, hn],
          by simp [phase], by simp [Event.isSize]⟩
      · obtain ⟨evs, rest2, hl, hp, hz⟩ := ih (tr ++ [.prompt (s ++ " [y/N]: ")])
        refine ⟨.prompt (s ++ " [y/N]: ") :: evs, rest2, ?_, ?_, ?_⟩
        · simp [askToConfirmLoop, firstAnswer, hy, hn, hl]
        · intro e he p hph
          rcases List.mem_cons.1 he with rfl | he
          · simpa [phase] using hph.symm
          · exact hp e he p hph
        · intro e he
          rcases List.mem_cons.1 he with rfl | he
          · rfl
          · exact hz e he

theorem verifyOK_force (st : State) : verifyOK true st = (.ok true, st) := by
  simp [verifyOK]

theorem verifyOK_ask (st : State) :
    ∃ (evs : List Event) (rest : List String),
      verifyOK false st =
        ((match firstAnswer st.stdin with
          | some b => .ok b
          | none => .exit 1), ⟨st.trace ++ evs, rest⟩) ∧
      (∀ e ∈ evs, ∀ p, phase e = some p → p = 1) ∧ ∀ e ∈ evs, e.isSize = false := by
  obtain ⟨evs, rest, h, hp, hz⟩ :=
    askToConfirmLoop_spec "Are you sure, you want to do this?" st.stdin st.trace
  refine ⟨evs, rest, ?_, hp, hz⟩
  simp only [verifyOK, askToConfirm, h]
  cases firstAnswer st.stdin with
  | none => simp
  | some b => cases b <;> simp

theorem SwarmNodes_panic {env : Env} {host e : String} (h : DockerClient env host = .panic e)
    (st : State) : SwarmNodes env host st = (.panic e, st) := by
  simp [SwarmNodes, h]

theorem SwarmNodes_cli {env : Env} {host : String} {cli : Client}
    (h : DockerClient env host = .ok cli) (st : State) :
    SwarmNodes env host st =
      ((match env.NodeList st.trace cli with
        | .error err => .panic err
        | .ok nodes => .ok nodes), ⟨st.trace ++ [.call cli .NodeList], st.stdin⟩) := by
  unfold SwarmNodes
  rw [h]
  simp only [State.emit]
  cases env.NodeList st.trace cli <;> rfl

/-! ## Lemmas: what any outcome of the per-node part adds to the trace -/

theorem Adds.refl (k : Nat) (st : State) : Adds k st st :=
  ⟨rfl, [], by simp, by simp⟩

theorem Adds.trans {k : Nat} {a b c : State} (h1 : Adds k a b) (h2 : Adds k b c) :
    Adds k a c := by
  obtain ⟨hs1, e1, ht1, hp1⟩ := h1
  obtain ⟨hs2, e2, ht2, hp2⟩ := h2
  refine ⟨hs2.trans hs1, e1 ++ e2, by rw [ht2, ht1, List.append_assoc], ?_⟩
  intro e he
  rcases List.mem_append.1 he with h | h
  · exact hp1 e h
  · exact hp2 e h

theorem Adds.of_events {k : Nat} (st : State) (evs : List Event)
    (h : ∀ e ∈ evs, ∀ p, phase e = some p → p = k) :
    Adds k st ⟨st.trace ++ evs, st.stdin⟩ :=
  ⟨rfl, evs, rfl, h⟩

theorem Adds.emit_println (k : Nat) (st : State) (s : String) :
    Adds k st (st.emit (.println s)) :=
  ⟨rfl, [.println s], rfl, by simp [phase]⟩

theorem Adds.emit_printlnSize (k : Nat) (st : State) (s : String) (b : Nat) :
    Adds k st (st.emit (.printlnSize s b)) :=
  ⟨rfl, [.printlnSize s b], rfl, by simp [phase]⟩

theorem Adds.printErr (k : Nat) (err : Option String) (st : State) :
    Adds k st (printErr err st) := by
  cases err with
  | none => exact Adds.refl k st
  | some e => exact Adds.emit_println k st e

theorem andThen_adds {α β : Type} {k : Nat} {st : State} (x : Result α × State)
    (f : α → State → Result β × State) (hx : Adds k st x.2)
    (hf : ∀ a st1, Adds k st1 (f a st1).2) : Adds k st (andThen x f).2 := by
  obtain ⟨r, st1⟩ := x
  cases r with
  | ok a => exact hx.trans (hf a st1)
  | exit c => exact hx
  | panic e => exact hx

theorem phase_call_prints (cli : Client) (req : Request) (ss : List String)
    (hreq : phase (.call cli req) = some 3) :
    ∀ e ∈ Event.call cli req :: ss.map Event.println, ∀ p, phase e = some p → p = 3 := by
  intro e he p hp
  rcases List.mem_cons.1 he with rfl | he
  · rw [hreq] at hp
    exact (Option.some.inj hp).symm
  · rw [phase_prints ss e he] at hp
    cases hp

theorem containerPrune_adds (env : Env) (host : String) (st : State) :
    Adds 3 st (containerPrune env host st).2 := by
  rcases DockerClient_cases env host with ⟨cli, hc⟩ | ⟨e, he⟩
  · obtain ⟨sr, err, ss, h, _⟩ := containerPrune_ok hc st
    rw [h]
    exact Adds.of_events st _ (phase_call_prints cli _ ss rfl)
  · rw [containerPrune_panic he]
    exact Adds.refl 3 st

theorem imagePrune_adds (env : Env) (host : String) (all : Bool) (st : State) :
    Adds 3 st (imagePrune env host all st).2 := by
  rcases DockerClient_cases env host with ⟨cli, hc⟩ | ⟨e, he⟩
  · obtain ⟨sr, err, ss, h, _⟩ := imagePrune_ok all hc st
    rw [h]
    exact Adds.of_events st _ (phase_call_prints cli _ ss rfl)
  · rw [imagePrune_panic all he]
    exact Adds.refl 3 st

theorem volumePrune_adds (env : Env) (host : String) (st : State) :
    Adds 3 st (volumePrune env host st).2 := by
  rcases DockerClient_cases env host with ⟨cli, hc⟩ | ⟨e, he⟩
  · obtain ⟨sr, err, ss, h, _⟩ := volumePrune_ok hc st
    rw [h]
    exact Adds.of_events st _ (phase_call_prints cli _ ss rfl)
  · rw [volumePrune_panic he]
    exact Adds.refl 3 st

theorem networkPrune_adds (env : Env) (host : String) (st : State) :
    Adds 3 st (networkPrune env host st).2 := by
  rcases DockerClient_cases env host with ⟨cli, hc⟩ | ⟨e, he⟩
  · obtain ⟨err, ss, h⟩ := networkPrune_ok hc st
    rw [h]
    exact Adds.of_events st _ (phase_call_prints cli _ ss rfl)
  · rw [networkPrune_panic he]
    exact Adds.refl 3 st

theorem df_adds (env : Env) (host : String) (verbose : Bool) (st : State) :
    Adds 3 st (df env host verbose st).2 := by
  rcases DockerClient_cases env host with ⟨cli, hc⟩ | ⟨e, he⟩
  · obtain ⟨err, evs, h, hp⟩ := df_ok verbose hc st
    rw [h]
    refine Adds.of_events st _ ?_
    intro e he p hph
    rcases List.mem_cons.1 he with rfl | he
    · exact (Option.some.inj hph).symm
    · rw [hp e he] at hph
      cases hph
  · rw [df_panic verbose he]
    exact Adds.refl 3 st

theorem singleNodes_adds (op : String → State → Result (Nat × Option String) × State)
    (hop : ∀ host st, Adds 3 st (op host st).2) (nodes : List Node) (total : Nat)
    (st : State) : Adds 3 st (singleNodes op nodes total st).2 := by
  induction nodes generalizing total st with
  | nil => exact Adds.refl 3 st
  | cons n rest ih =>
    unfold singleNodes
    refine andThen_adds _ _ ?_ (fun t st1 => ih t st1)
    unfold singleNode
    refine (Adds.emit_println 3 st _).trans (andThen_adds _ _ (hop _ _) ?_)
    intro r st1
    exact (Adds.printErr 3 _ st1).trans (Adds.emit_printlnSize 3 _ _ _)

theorem systemNodes_adds (env : Env) (all : Bool) (nodes : List Node) (total : Nat)
    (st : State) : Adds 3 st (systemNodes env all nodes total st).2 := by
  induction nodes generalizing total st with
  | nil => exact Adds.refl 3 st
  | cons n rest ih =>
    unfold systemNodes
    refine andThen_adds _ _ ?_ (fun t st1 => ih t st1)
    unfold systemNode
    refine (Adds.emit_println 3 st _).trans
      (andThen_adds _ _ (containerPrune_adds _ _ _) ?_)
    intro r1 st1
    refine (Adds.printErr 3 _ st1).trans (andThen_adds _ _ (imagePrune_adds _ _ _ _) ?_)
    intro r2 st2
    refine (Adds.printErr 3 _ st2).trans (andThen_adds _ _ (networkPrune_adds _ _ _) ?_)
    intro r3 st3
    refine (Adds.printErr 3 _ st3).trans (andThen_adds _ _ (volumePrune_adds _ _ _) ?_)
    intro r4 st4
    exact (Adds.printErr 3 _ st4).trans (Adds.emit_printlnSize 3 _ _ _)

theorem networksNodes_adds (env : Env) (nodes : List Node) (st : State) :
    Adds 3 st (networksNodes env nodes st).2 := by
  induction nodes generalizing st with
  | nil => exact Adds.refl 3 st
  | cons n rest ih =>
    unfold networksNodes
    refine (Adds.emit_println 3 st _).trans (andThen_adds _ _ (networkPrune_adds _ _ _) ?_)
    intro r st1
    exact (Adds.printErr 3 _ st1).trans (ih _)

theorem dfNodes_adds (env : Env) (verbose : Bool) (nodes : List Node) (st : State) :
    Adds 3 st (dfNodes env verbose nodes st).2 := by
  induction nodes generalizing st with
  | nil => exact Adds.refl 3 st
  | cons n rest ih =>
    unfold dfNodes
    refine (Adds.emit_println 3 st _).trans (andThen_adds _ _ (df_adds _ _ _ _) ?_)
    intro r st1
    exact ((Adds.printErr 3 _ st1).trans (Adds.emit_println 3 _ _)).trans (ih _)

theorem body_adds (env : Env) (cmd : Command) (nodes : List Node) (st : State) :
    Adds 3 st (body env cmd nodes st).2 := by
  cases cmd with
  | system force all =>
    exact andThen_adds _ _ (systemNodes_adds env all nodes 0 st)
      (fun t st1 => Adds.emit_printlnSize 3 st1 _ t)
  | containers force =>
    exact andThen_adds _ _ (singleNodes_adds _ (containerPrune_adds env) nodes 0 st)
      (fun t st1 => Adds.emit_printlnSize 3 st1 _ t)
  | images force all =>
    exact andThen_adds _ _
      (singleNodes_adds _ (fun host st1 => imagePrune_adds env host all st1) nodes 0 st)
      (fun t st1 => Adds.emit_printlnSize 3 st1 _ t)
  | volumes force =>
    exact andThen_adds _ _ (singleNodes_adds _ (volumePrune_adds env) nodes 0 st)
      (fun t st1 => Adds.emit_printlnSize 3 st1 _ t)
  | networks force =>
    exact andThen_adds _ _ (networksNodes_adds env nodes st) (fun _ st1 => Adds.refl 3 st1)
  | df verbose =>
    exact andThen_adds _ _ (dfNodes_adds env verbose nodes st) (fun _ st1 => Adds.refl 3 st1)

theorem run_eq_guarded (env : Env) (g : Globals) (cmd : Command) (st : State) :
    run env g cmd st = guarded env g.host cmd.force (body env cmd) st := by
  cases cmd with
  | df verbose =>
    simp only [run, dfAction, guarded, Command.force, body, verifyOK_force, andThen_ok]
    rfl
  | _ => rfl

/-! ## Lemmas: the order of the steps -/

theorem Ordered.nil : Ordered 0 [] := by
  simp [Ordered]

theorem Ordered.append {k j : Nat} {tr evs : List Event} (h : Ordered k tr) (hkj : k ≤ j)
    (he : ∀ e ∈ evs, ∀ p, phase e = some p → p = j) : Ordered j (tr ++ evs) := by
  obtain ⟨hs, hb⟩ := h
  have hall : ∀ p ∈ evs.filterMap phase, p = j := by
    intro p hp
    obtain ⟨e, hmem, hph⟩ := List.mem_filterMap.1 hp
    exact he e hmem p hph
  refine ⟨?_, ?_⟩
  · rw [List.filterMap_append, List.pairwise_append]
    refine ⟨hs, ?_, ?_⟩
    · rw [List.pairwise_iff_forall_sublist]
      intro a b hab
      have ha := hall a (hab.subset (by simp))
      have hb2 := hall b (hab.subset (by simp))
      omega
    · intro a ha b hb2
      have := hb a ha
      have := hall b hb2
      omega
  · intro p hp
    rw [List.filterMap_append] at hp
    rcases List.mem_append.1 hp with h1 | h1
    · exact (hb p h1).trans hkj
    · exact (hall p h1).le

theorem Ordered.mono {k j : Nat} {tr : List Event} (h : Ordered k tr) (hkj : k ≤ j) :
    Ordered j tr := by
  simpa using @Ordered.append k j tr [] h hkj (by simp)

theorem Ordered.of_adds {k j : Nat} {st st1 : State} (h : Ordered k st.trace) (hkj : k ≤ j)
    (ha : Adds j st st1) : Ordered j st1.trace := by
  obtain ⟨_, evs, ht, hp⟩ := ha
  rw [ht]
  exact h.append hkj hp

theorem guarded_panic {env : Env} {host e : String} (h : DockerClient env host = .panic e)
    (force : Bool) (body : List Node → State → Result (Option ExitError) × State)
    (st : State) : guarded env host force body st = (.panic e, st) := by
  simp [guarded, validate_panic h]

theorem guarded_not_confirmed {env : Env} {host : String} {cli : Client}
    (h : DockerClient env host = .ok cli) (force : Bool)
    (body : List Node → State → Result (Option ExitError) × State) (st : State)
    (hn : confirmsManager env cli st.trace = false) :
    ∃ evs : List Event, guarded env host force body st = (.exit 1, ⟨st.trace ++ evs, st.stdin⟩) ∧
      ∀ e ∈ evs, ∀ p, phase e = some p → p = 0 := by
  obtain ⟨evs, hv, hp, _⟩ := validate_cli h st
  refine ⟨evs, ?_, hp⟩
  simp [guarded, hv, hn]

theorem guarded_ordered (env : Env) (host : String) (force : Bool)
    (body : List Node → State → Result (Option ExitError) × State)
    (hbody : ∀ nodes st1, Adds 3 st1 (body nodes st1).2) (st : State)
    (ho : Ordered 0 st.trace) : Ordered 3 (guarded env host force body st).2.trace := by
  rcases DockerClient_cases env host with ⟨cli, hc⟩ | ⟨e, he⟩
  · obtain ⟨evs, hv, hp, _⟩ := validate_cli hc st
    have h1 : Ordered 0 (st.trace ++ evs) := ho.append (le_refl 0) hp
    unfold guarded
    rw [hv]
    by_cases hm : confirmsManager env cli st.trace = true
    · simp only [hm, if_true, andThen_ok]
      have hswarm : ∀ st2 : State, Ordered 1 st2.trace →
          Ordered 3 (andThen (SwarmNodes env host st2) body).2.trace := by
        intro st2 h2
        rw [SwarmNodes_cli hc st2]
        have h3 : Ordered 2 (st2.trace ++ [Event.call cli Request.NodeList]) :=
          h2.append (by omega) (by simp [phase])
        cases env.NodeList st2.trace cli with
        | error err => exact h3.mono (by omega)
        | ok nodes => exact h3.of_adds (by omega) (hbody nodes _)
      cases force with
      | true =>
        rw [verifyOK_force]
        exact hswarm _ (h1.mono (by omega))
      | false =>
        obtain ⟨evs1, rest, hask, hp1, _⟩ := verifyOK_ask ⟨st.trace ++ evs, st.stdin⟩
        rw [hask]
        have h2 : Ordered 1 (st.trace ++ evs ++ evs1) := h1.append (by omega) hp1
        cases firstAnswer st.stdin with
        | none => exact h2.mono (by omega)
        | some b =>
          cases b with
          | false => exact h2.mono (by omega)
          | true => exact hswarm _ h2
    · simp only [hm]
      exact h1.mono (by omega)
  · rw [guarded_panic he]
    exact ho.mono (by omega)

/-! ## Lemmas: a run that passes the guard -/

theorem sizes_nil_of_not_isSize (evs : List Event) (h : ∀ e ∈ evs, e.isSize = false) :
    nodeSubtotals evs = [] ∧ grandTotals evs = [] := by
  induction evs with
  | nil => exact ⟨rfl, rfl⟩
  | cons e rest ih =>
    have hr := ih (fun x hx => h x (List.mem_cons_of_mem _ hx))
    have he := h e (List.mem_cons_self _ _)
    cases e with
    | printlnSize s b => simp [Event.isSize] at he
    | _ => simpa [nodeSubtotals, grandTotals] using hr

theorem pruneCalls_nil_of_phase (evs : List Event)
    (h : ∀ e ∈ evs, ∀ p, phase e = some p → p ≤ 2) :
    pruneCalls evs = [] ∧ imagePruneCalls evs = [] := by
  induction evs with
  | nil => exact ⟨rfl, rfl⟩
  | cons e rest ih =>
    have hr := ih (fun x hx => h x (List.mem_cons_of_mem _ hx))
    have he := h e (List.mem_cons_self _ _)
    cases e with
    | call c r =>
      cases r with
      | ContainersPrune => exact absurd (he 3 rfl) (by omega)
      | ImagesPrune d => exact absurd (he 3 rfl) (by omega)
      | NetworksPrune => exact absurd (he 3 rfl) (by omega)
      | VolumesPrune => exact absurd (he 3 rfl) (by omega)
      | DiskUsage => exact absurd (he 3 rfl) (by omega)
      | _ => simpa [pruneCalls, imagePruneCalls, calls, Request.isPrune] using hr
    | _ => simpa [pruneCalls, imagePruneCalls, calls] using hr

theorem verifyOK_true_inv {force : Bool} {st1 st2 : State}
    (h : verifyOK force st1 = (.ok true, st2)) :
    ∃ evs : List Event, st2.trace = st1.trace ++ evs ∧
      (∀ e ∈ evs, ∀ p, phase e = some p → p = 1) ∧ (∀ e ∈ evs, e.isSize = false) ∧
      (force = true → st2 = st1) ∧ (force = false → firstAnswer st1.stdin = some true) := by
  cases force with
  | true =>
    rw [verifyOK_force] at h
    cases h
    exact ⟨[], by simp, by simp, by simp, fun _ => rfl, by simp⟩
  | false =>
    obtain ⟨evs, rest, hask, hp, hz⟩ := verifyOK_ask st1
    rw [hask] at h
    refine ⟨evs, ?_, hp, hz, by simp, fun _ => ?_⟩
    · have := congrArg (fun x => x.2.trace) h
      simpa using this.symm
    · cases hf : firstAnswer st1.stdin with
      | none => rw [hf] at h; cases h
      | some b =>
        rw [hf] at h
        cases b with
        | true => rfl
        | false => cases h

theorem passesGuard_inv {env : Env} {host : String} {force : Bool} {st0 st3 : State}
    {nodes : List Node} (h : passesGuard env host force st0 nodes st3)
    (body : List Node → State → Result (Option ExitError) × State) :
    guarded env host force body st0 = body nodes st3 ∧
    ∃ evs : List Event, st3.trace = st0.trace ++ evs ∧
      (∀ e ∈ evs, ∀ p, phase e = some p → p ≤ 2) ∧ (∀ e ∈ evs, e.isSize = false) := by
  obtain ⟨st1, st2, hv, hk, hs⟩ := h
  refine ⟨by simp [guarded, hv, hk, hs], ?_⟩
  obtain ⟨cli, hc, hm⟩ := validate_ok_inv hv
  obtain ⟨e0, hv0, hp0, hz0⟩ := validate_cli hc st0
  rw [hv] at hv0
  have ht1 : st1.trace = st0.trace ++ e0 := by
    have := congrArg (fun x => x.2.trace) hv0
    simpa using this
  obtain ⟨e1, ht2, hp1, hz1, _, _⟩ := verifyOK_true_inv hk
  rw [SwarmNodes_cli hc st2] at hs
  have ht3 : st3.trace = st2.trace ++ [Event.call cli Request.NodeList] := by
    have := congrArg (fun x => x.2.trace) hs
    simpa using this.symm
  refine ⟨e0 ++ e1 ++ [Event.call cli Request.NodeList], ?_, ?_, ?_⟩
  · rw [ht3, ht2, ht1]
    simp [List.append_assoc]
  · intro e he p hph
    simp only [List.mem_append, List.mem_singleton] at he
    rcases he with (h0 | h1) | rfl
    · have := hp0 e h0 p hph; omega
    · have := hp1 e h1 p hph; omega
    · simp [phase] at hph; omega
  · intro e he
    simp only [List.mem_append, List.mem_singleton] at he
    rcases he with (h0 | h1) | rfl
    · exact hz0 e h0
    · exact hz1 e h1
    · rfl

@[simp]
theorem nodeSubtotals_cons_systemTotal (b : Nat) (l : List Event) :
    nodeSubtotals (.printlnSize "\n  Total Swarm reclaimed space:" b :: l) = nodeSubtotals l := by
  simp [nodeSubtotals]

@[simp]
theorem nodeSubtotals_cons_total (b : Nat) (l : List Event) :
    nodeSubtotals (.printlnSize "\n    Total Swarm reclaimed space:" b :: l) =
      nodeSubtotals l := by
  simp [nodeSubtotals]

@[simp]
theorem grandTotals_cons_systemTotal (b : Nat) (l : List Event) :
    grandTotals (.printlnSize "\n  Total Swarm reclaimed space:" b :: l) =
      b :: grandTotals l := by
  simp [grandTotals]

@[simp]
theorem grandTotals_cons_total (b : Nat) (l : List Event) :
    grandTotals (.printlnSize "\n    Total Swarm reclaimed space:" b :: l) =
      b :: grandTotals l := by
  simp [grandTotals]

theorem foldl_addU64 (subs : List Nat) (t : Nat) :
    subs.foldl addU64 t % 2 ^ 64 = (t + subs.sum) % 2 ^ 64 := by
  induction subs generalizing t with
  | nil => simp
  | cons a rest ih =>
    rw [List.foldl_cons, ih, List.sum_cons, addU64]
    omega

theorem foldl_addU64_zero (subs : List Nat) :
    subs.foldl addU64 0 = subs.sum % 2 ^ 64 := by
  have h := foldl_addU64 subs 0
  have hlt : subs.foldl addU64 0 < 2 ^ 64 := by
    cases subs using List.reverseRecOn with
    | nil => simp
    | append_singleton l a =>
      rw [List.foldl_append, List.foldl_cons, List.foldl_nil, addU64]
      exact Nat.mod_lt _ (by norm_num)
  rw [Nat.mod_eq_of_lt hlt] at h
  simpa using h

theorem body_total_ok (env : Env) (cmd : Command) (hcmd : cmd.hasTotal = true)
    (nodes : List Node) (hc : connects env nodes) (st : State) :
    ∃ (subs : List Nat) (evs : List Event),
      body env cmd nodes st = (.ok none, ⟨st.trace ++ evs, st.stdin⟩) ∧
      subs.length = nodes.length ∧ nodeSubtotals evs = subs ∧
      grandTotals evs = [subs.sum % 2 ^ 64] := by
  have hsingle : ∀ (op : String → State → Result (Nat × Option String) × State)
      (req : Request),
      (∀ n ∈ nodes, ∀ st : State, ∃ (cli : Client) (sr : Nat) (err : Option String)
        (ss : List String), cli.host = nodeAddr n ∧ op (nodeAddr n) st =
          (.ok (sr, err),
            ⟨st.trace ++ Event.call cli req :: ss.map Event.println, st.stdin⟩)) →
      ∃ (subs : List Nat) (evs : List Event),
        (andThen (singleNodes op nodes 0 st) fun totalSpaceReclaimed st =>
          ((.ok none : Result (Option ExitError)),
            st.emit (.printlnSize "\n    Total Swarm reclaimed space:" totalSpaceReclaimed))) =
          (.ok none, ⟨st.trace ++ evs, st.stdin⟩) ∧
        subs.length = nodes.length ∧ nodeSubtotals evs = subs ∧
        grandTotals evs = [subs.sum % 2 ^ 64] := by
    intro op req hop
    obtain ⟨subs, evs, hrun, hlen, hsub, hgt, _⟩ := singleNodes_ok op req nodes hop 0 st
    refine ⟨subs, evs ++ [.printlnSize "\n    Total Swarm reclaimed space:"
      (subs.foldl addU64 0)], ?_, hlen, ?_, ?_⟩
    · simp [hrun, State.emit, List.append_assoc]
    · simp [nodeSubtotals_append, hsub]
    · simp [grandTotals_append, hgt, foldl_addU64_zero]
  cases cmd with
  | system force all =>
    obtain ⟨subs, evs, hrun, hlen, hsub, hgt, _⟩ := systemNodes_ok env all nodes hc 0 st
    refine ⟨subs, evs ++ [.printlnSize "\n  Total Swarm reclaimed space:"
      (subs.foldl addU64 0)], ?_, hlen, ?_, ?_⟩
    · simp [body, hrun, State.emit, List.append_assoc]
    · simp [nodeSubtotals_append, hsub]
    · simp [grandTotals_append, hgt, foldl_addU64_zero]
  | containers force =>
    refine hsingle (containerPrune env) .ContainersPrune ?_
    intro n hn st1
    obtain ⟨cli, hcli⟩ := hc n hn
    obtain ⟨sr, err, ss, h, _⟩ := containerPrune_ok hcli st1
    exact ⟨cli, sr, err, ss, (DockerClient_ok hcli).1, h⟩
  | images force all =>
    refine hsingle (fun addr => imagePrune env addr all) (.ImagesPrune (!all)) ?_
    intro n hn st1
    obtain ⟨cli, hcli⟩ := hc n hn
    obtain ⟨sr, err, ss, h, _⟩ := imagePrune_ok all hcli st1
    exact ⟨cli, sr, err, ss, (DockerClient_ok hcli).1, h⟩
  | volumes force =>
    refine hsingle (volumePrune env) .VolumesPrune ?_
    intro n hn st1
    obtain ⟨cli, hcli⟩ := hc n hn
    obtain ⟨sr, err, ss, h, _⟩ := volumePrune_ok hcli st1
    exact ⟨cli, sr, err, ss, (DockerClient_ok hcli).1, h⟩
  | networks force => simp [Command.hasTotal] at hcmd
  | df verbose => simp [Command.hasTotal] at hcmd

theorem containerPrune_value {env : Env} {host : String} {cli : Client}
    (h : DockerClient env host = .ok cli) {st st1 : State} {sr : Nat} {err : Option String}
    (hrun : containerPrune env host st = (.ok (sr, err), st1)) :
    sr = containersBytes (env.ContainersPrune st.trace cli) ∧
      (err ≠ none ↔ ∃ e, env.ContainersPrune st.trace cli = .error e) := by
  unfold containerPrune at hrun
  rw [h] at hrun
  dsimp only at hrun
  cases hans : env.ContainersPrune st.trace cli with
  | error e =>
    rw [hans] at hrun
    cases hrun
    simp [containersBytes]
  | ok report =>
    rw [hans] at hrun
    by_cases hl : report.ContainersDeleted.length > 0
    · simp only [hl, if_true] at hrun
      cases hrun
      simp [containersBytes, hl]
    · simp only [hl, if_false] at hrun
      cases hrun
      simp [containersBytes, hl]

theorem imagePrune_value {env : Env} {host : String} {cli : Client} {all : Bool}
    (h : DockerClient env host = .ok cli) {st st1 : State} {sr : Nat} {err : Option String}
    (hrun : imagePrune env host all st = (.ok (sr, err), st1)) :
    sr = imagesBytes (env.ImagesPrune st.trace cli (!all)) ∧
      (err ≠ none ↔ ∃ e, env.ImagesPrune st.trace cli (!all) = .error e) := by
  unfold imagePrune at hrun
  rw [h] at hrun
  dsimp only at hrun
  cases hans : env.ImagesPrune st.trace cli (!all) with
  | error e =>
    rw [hans] at hrun
    cases hrun
    simp [imagesBytes]
  | ok report =>
    rw [hans] at hrun
    by_cases hl : report.ImagesDeleted.length > 0
    · simp only [hl, if_true] at hrun
      cases hrun
      simp [imagesBytes, hl, addU64]
    · simp only [hl, if_false] at hrun
      cases hrun
      simp [imagesBytes, hl]

theorem volumePrune_value {env : Env} {host : String} {cli : Client}
    (h : DockerClient env host = .ok cli) {st st1 : State} {sr : Nat} {err : Option String}
    (hrun : volumePrune env host st = (.ok (sr, err), st1)) :
    sr = volumesBytes (env.VolumesPrune st.trace cli) ∧
      (err ≠ none ↔ ∃ e, env.VolumesPrune st.trace cli = .error e) := by
  unfold volumePrune at hrun
  rw [h] at hrun
  dsimp only at hrun
  cases hans : env.VolumesPrune st.trace cli with
  | error e =>
    rw [hans] at hrun
    cases hrun
    simp [volumesBytes]
  | ok report =>
    rw [hans] at hrun
    by_cases hl : report.VolumesDeleted.length > 0
    · simp only [hl, if_true] at hrun
      cases hrun
      simp [volumesBytes, hl]
    · simp only [hl, if_false] at hrun
      cases hrun
      simp [volumesBytes, hl]

theorem filter_isPrune_systemCalls (all : Bool) (nodes : List Node) :
    (nodes.flatMap (systemCalls all)).filter (fun x => x.2.isPrune) =
      nodes.flatMap (systemCalls all) := by
  induction nodes with
  | nil => rfl
  | cons n rest ih =>
    simp only [List.flatMap_cons, List.filter_append, ih]
    simp [systemCalls, Request.isPrune]

theorem filter_images_systemCalls (all : Bool) (nodes : List Node) :
    (nodes.flatMap (systemCalls all)).filter
      (fun x => match x.2 with
        | .ImagesPrune _ => true
        | _ => false) =
      nodes.map fun n => (nodeAddr n, Request.ImagesPrune (!all)) := by
  induction nodes with
  | nil => rfl
  | cons n rest ih =>
    simp only [List.flatMap_cons, List.filter_append, ih]
    simp [systemCalls]

theorem filter_images_map (d : Bool) (nodes : List Node) :
    (nodes.map fun n => (nodeAddr n, Request.ImagesPrune d)).filter
      (fun x => match x.2 with
        | .ImagesPrune _ => true
        | _ => false) =
      nodes.map fun n => (nodeAddr n, Request.ImagesPrune d) := by
  induction nodes with
  | nil => rfl
  | cons n rest ih => simp [ih]

theorem length_systemCalls (all : Bool) (nodes : List Node) :
    (nodes.flatMap (systemCalls all)).length = 4 * nodes.length := by
  induction nodes with
  | nil => rfl
  | cons n rest ih =>
    rw [List.flatMap_cons, List.length_append, ih, List.length_cons]
    simp only [systemCalls, List.length_cons, List.length_nil]
    omega

theorem system_body_calls (env : Env) (all : Bool) (force : Bool) (nodes : List Node)
    (hc : connects env nodes) (st : State) :
    ∃ evs : List Event,
      body env (.system force all) nodes st = (.ok none, ⟨st.trace ++ evs, st.stdin⟩) ∧
      calls evs = nodes.flatMap (systemCalls all) := by
  obtain ⟨subs, evs, hrun, _, _, _, hcalls⟩ := systemNodes_ok env all nodes hc 0 st
  refine ⟨evs ++ [.printlnSize "\n  Total Swarm reclaimed space:" (subs.foldl addU64 0)],
    ?_, ?_⟩
  · simp [body, hrun, State.emit, List.append_assoc]
  · simp [calls_append, hcalls]

theorem images_body_calls (env : Env) (all : Bool) (force : Bool) (nodes : List Node)
    (hc : connects env nodes) (st : State) :
    ∃ evs : List Event,
      body env (.images force all) nodes st = (.ok none, ⟨st.trace ++ evs, st.stdin⟩) ∧
      calls evs = nodes.map fun n => (nodeAddr n, Request.ImagesPrune (!all)) := by
  have hop : ∀ n ∈ nodes, ∀ st : State, ∃ (cli : Client) (sr : Nat) (err : Option String)
      (ss : List String), cli.host = nodeAddr n ∧
        (fun addr => imagePrune env addr all) (nodeAddr n) st =
        (.ok (sr, err), ⟨st.trace ++ Event.call cli (.ImagesPrune (!all)) ::
          ss.map Event.println, st.stdin⟩) := by
    intro n hn st1
    obtain ⟨cli, hcli⟩ := hc n hn
    obtain ⟨sr, err, ss, h, _⟩ := imagePrune_ok all hcli st1
    exact ⟨cli, sr, err, ss, (DockerClient_ok hcli).1, h⟩
  obtain ⟨subs, evs, hrun, _, _, _, hcalls⟩ :=
    singleNodes_ok (fun addr => imagePrune env addr all) (.ImagesPrune (!all)) nodes hop 0 st
  refine ⟨evs ++ [.printlnSize "\n    Total Swarm reclaimed space:" (subs.foldl addU64 0)],
    ?_, ?_⟩
  · simp [body, hrun, State.emit, List.append_assoc]
  · simp [calls_append, hcalls]

theorem singleNodes_any (env : Env)
    (op : String → State → Result (Nat × Option String) × State) (req : Request)
    (hok : ∀ host cli st, DockerClient env host = .ok cli →
      ∃ (sr : Nat) (err : Option String) (ss : List String), op host st =
        (.ok (sr, err), ⟨st.trace ++ Event.call cli req :: ss.map Event.println, st.stdin⟩))
    (hpanic : ∀ host e st, DockerClient env host = .panic e → op host st = (.panic e, st))
    (nodes : List Node) (total : Nat) (st : State) :
    ∃ evs : List Event, (singleNodes op nodes total st).2 = ⟨st.trace ++ evs, st.stdin⟩ ∧
      calls evs <+: (nodes.map fun n => (nodeAddr n, req)) ∧ grandTotals evs = [] ∧
      ∀ t, (singleNodes op nodes total st).1 = .ok t →
        t = (nodeSubtotals evs).foldl addU64 total := by
  induction nodes generalizing total st with
  | nil =>
    refine ⟨[], by simp [singleNodes], List.prefix_refl _, rfl, ?_⟩
    intro t ht
    simp only [singleNodes] at ht
    cases ht
    rfl
  | cons n rest ih =>
    rcases DockerClient_cases env (nodeAddr n) with ⟨cli, hcli⟩ | ⟨e, he⟩
    · have hop : ∀ st : State, ∃ (cli : Client) (sr : Nat) (err : Option String)
          (ss : List String), cli.host = nodeAddr n ∧ op (nodeAddr n) st =
            (.ok (sr, err),
              ⟨st.trace ++ Event.call cli req :: ss.map Event.println, st.stdin⟩) := by
        intro st1
        obtain ⟨sr, err, ss, h⟩ := hok _ cli st1 hcli
        exact ⟨cli, sr, err, ss, (DockerClient_ok hcli).1, h⟩
      obtain ⟨sr, evs1, hone, hsub1, hgt1, hcalls1⟩ := singleNode_ok op req n hop total st
      obtain ⟨evs2, hrest, ⟨t, ht⟩, hgt2, hval⟩ :=
        ih (addU64 total sr) ⟨st.trace ++ evs1, st.stdin⟩
      have hstep : singleNodes op (n :: rest) total st =
          singleNodes op rest (addU64 total sr) ⟨st.trace ++ evs1, st.stdin⟩ := by
        simp only [singleNodes, hone, andThen_ok]
      refine ⟨evs1 ++ evs2, ?_, ⟨t, ?_⟩, ?_, ?_⟩
      · rw [hstep, hrest]
        simp [List.append_assoc]
      · simp [calls_append, hcalls1, ← ht]
      · simp [grandTotals_append, hgt1, hgt2]
      · intro t1 ht1
        rw [hstep] at ht1
        rw [hval t1 ht1, nodeSubtotals_append, hsub1]
        rfl
    · refine ⟨[.println (nodeHeader n)], ?_, ?_, ?_, ?_⟩
      · unfold singleNodes singleNode
        simp only [hpanic _ e _ he, andThen_panic]
        rfl
      · simp
      · simp
      · intro t ht
        unfold singleNodes singleNode at ht
        simp only [hpanic _ e _ he, andThen_panic] at ht
        cases ht

theorem systemNodes_any (env : Env) (all : Bool) (nodes : List Node) (total : Nat)
    (st : State) :
    ∃ evs : List Event, (systemNodes env all nodes total st).2 = ⟨st.trace ++ evs, st.stdin⟩ ∧
      calls evs <+: nodes.flatMap (systemCalls all) ∧ grandTotals evs = [] ∧
      ∀ t, (systemNodes env all nodes total st).1 = .ok t →
        t = (nodeSubtotals evs).foldl addU64 total := by
  induction nodes generalizing total st with
  | nil =>
    refine ⟨[], by simp [systemNodes], List.prefix_refl _, rfl, ?_⟩
    intro t ht
    simp only [systemNodes] at ht
    cases ht
    rfl
  | cons n rest ih =>
    rcases DockerClient_cases env (nodeAddr n) with ⟨cli, hcli⟩ | ⟨e, he⟩
    · obtain ⟨sr, evs1, hone, hsub1, hgt1, hcalls1⟩ := systemNode_ok env all n hcli total st
      obtain ⟨evs2, hrest, ⟨t, ht⟩, hgt2, hval⟩ :=
        ih (addU64 total sr) ⟨st.trace ++ evs1, st.stdin⟩
      have hstep : systemNodes env all (n :: rest) total st =
          systemNodes env all rest (addU64 total sr) ⟨st.trace ++ evs1, st.stdin⟩ := by
        simp only [systemNodes, hone, andThen_ok]
      refine ⟨evs1 ++ evs2, ?_, ⟨t, ?_⟩, ?_, ?_⟩
      · rw [hstep, hrest]
        simp [List.append_assoc]
      · simp [calls_append, hcalls1, List.flatMap_cons, ← ht]
      · simp [grandTotals_append, hgt1, hgt2]
      · intro t1 ht1
        rw [hstep] at ht1
        rw [hval t1 ht1, nodeSubtotals_append, hsub1]
        rfl
    · refine ⟨[.println (nodeHeader n)], ?_, ?_, ?_, ?_⟩
      · unfold systemNodes systemNode
        simp only [containerPrune_panic he, andThen_panic]
        rfl
      · simp
      · simp
      · intro t ht
        unfold systemNodes systemNode at ht
        simp only [containerPrune_panic he, andThen_panic] at ht
        cases ht

theorem andThen_total_any {st : State} {evs : List Event} {total : Nat} (label : String)
    (hlabel : label = "\n  Total Swarm reclaimed space:" ∨
      label = "\n    Total Swarm reclaimed space:")
    (x : Result Nat × State) (hx : x.2 = ⟨st.trace ++ evs, st.stdin⟩)
    (hgt : grandTotals evs = [])
    (hval : ∀ t, x.1 = .ok t → t = (nodeSubtotals evs).foldl addU64 total) :
    ∃ evs1 : List Event,
      (andThen x fun total st1 =>
        ((.ok none : Result (Option ExitError)), st1.emit (.printlnSize label total))).2 =
        ⟨st.trace ++ evs1, st.stdin⟩ ∧ calls evs1 = calls evs ∧
      ∀ t ∈ grandTotals evs1, t = (nodeSubtotals evs1).foldl addU64 total := by
  obtain ⟨r, st1⟩ := x
  simp only at hx
  subst hx
  cases r with
  | ok t =>
    refine ⟨evs ++ [.printlnSize label t], by simp [State.emit, List.append_assoc],
      by simp [calls_append], ?_⟩
    have ht := hval t rfl
    rcases hlabel with rfl | rfl
    · simp [grandTotals_append, nodeSubtotals_append, hgt, ht]
    · simp [grandTotals_append, nodeSubtotals_append, hgt, ht]
  | exit c => exact ⟨evs, rfl, rfl, by simp [hgt]⟩
  | panic e => exact ⟨evs, rfl, rfl, by simp [hgt]⟩

theorem body_any (env : Env) (cmd : Command) (hcmd : cmd.hasTotal = true)
    (nodes : List Node) (st : State) :
    ∃ evs : List Event, (body env cmd nodes st).2 = ⟨st.trace ++ evs, st.stdin⟩ ∧
      ∀ t ∈ grandTotals evs, t = (nodeSubtotals evs).sum % 2 ^ 64 := by
  have hsingle : ∀ (op : String → State → Result (Nat × Option String) × State)
      (req : Request),
      (∀ host cli st, DockerClient env host = .ok cli →
        ∃ (sr : Nat) (err : Option String) (ss : List String), op host st =
          (.ok (sr, err),
            ⟨st.trace ++ Event.call cli req :: ss.map Event.println, st.stdin⟩)) →
      (∀ host e st, DockerClient env host = .panic e → op host st = (.panic e, st)) →
      ∃ evs : List Event,
        (andThen (singleNodes op nodes 0 st) fun totalSpaceReclaimed st =>
          ((.ok none : Result (Option ExitError)),
            st.emit (.printlnSize "\n    Total Swarm reclaimed space:" totalSpaceReclaimed))).2 =
          ⟨st.trace ++ evs, st.stdin⟩ ∧
        ∀ t ∈ grandTotals evs, t = (nodeSubtotals evs).sum % 2 ^ 64 := by
    intro op req hok hpanic
    obtain ⟨evs, h, _, hgt, hval⟩ := singleNodes_any env op req hok hpanic nodes 0 st
    obtain ⟨evs1, h1, _, ht⟩ := andThen_total_any "\n    Total Swarm reclaimed space:"
      (Or.inr rfl) (singleNodes op nodes 0 st) h hgt hval
    refine ⟨evs1, h1, ?_⟩
    intro t htm
    rw [ht t htm, foldl_addU64_zero]
  cases cmd with
  | system force all =>
    obtain ⟨evs, h, _, hgt, hval⟩ := systemNodes_any env all nodes 0 st
    obtain ⟨evs1, h1, _, ht⟩ := andThen_total_any "\n  Total Swarm reclaimed space:"
      (Or.inl rfl) (systemNodes env all nodes 0 st) h hgt hval
    refine ⟨evs1, h1, ?_⟩
    intro t htm
    rw [ht t htm, foldl_addU64_zero]
  | containers force =>
    exact hsingle (containerPrune env) .ContainersPrune
      (fun host cli st1 hc => by
        obtain ⟨sr, err, ss, hr, _⟩ := containerPrune_ok hc st1
        exact ⟨sr, err, ss, hr⟩)
      (fun host e st1 he => containerPrune_panic he st1)
  | images force all =>
    exact hsingle (fun addr => imagePrune env addr all) (.ImagesPrune (!all))
      (fun host cli st1 hc => by
        obtain ⟨sr, err, ss, hr, _⟩ := imagePrune_ok all hc st1
        exact ⟨sr, err, ss, hr⟩)
      (fun host e st1 he => imagePrune_panic all he st1)
  | volumes force =>
    exact hsingle (volumePrune env) .VolumesPrune
      (fun host cli st1 hc => by
        obtain ⟨sr, err, ss, hr, _⟩ := volumePrune_ok hc st1
        exact ⟨sr, err, ss, hr⟩)
      (fun host e st1 he => volumePrune_panic he st1)
  | networks force => simp [Command.hasTotal] at hcmd
  | df verbose => simp [Command.hasTotal] at hcmd

theorem system_body_calls_prefix (env : Env) (all : Bool) (force : Bool) (nodes : List Node)
    (st : State) :
    ∃ evs : List Event,
      (body env (.system force all) nodes st).2 = ⟨st.trace ++ evs, st.stdin⟩ ∧
      calls evs <+: nodes.flatMap (systemCalls all) := by
  obtain ⟨evs, h, hp, hgt, hval⟩ := systemNodes_any env all nodes 0 st
  obtain ⟨evs1, h1, hc, _⟩ := andThen_total_any "\n  Total Swarm reclaimed space:"
    (Or.inl rfl) (systemNodes env all nodes 0 st) h hgt hval
  exact ⟨evs1, h1, hc ▸ hp⟩

theorem images_body_calls_prefix (env : Env) (all : Bool) (force : Bool) (nodes : List Node)
    (st : State) :
    ∃ evs : List Event,
      (body env (.images force all) nodes st).2 = ⟨st.trace ++ evs, st.stdin⟩ ∧
      calls evs <+: nodes.map fun n => (nodeAddr n, Request.ImagesPrune (!all)) := by
  obtain ⟨evs, h, hp, hgt, hval⟩ := singleNodes_any env (fun addr => imagePrune env addr all)
    (.ImagesPrune (!all))
    (fun host cli st1 hc => by
      obtain ⟨sr, err, ss, hr, _⟩ := imagePrune_ok all hc st1
      exact ⟨sr, err, ss, hr⟩)
    (fun host e st1 he => imagePrune_panic all he st1) nodes 0 st
  obtain ⟨evs1, h1, hc, _⟩ := andThen_total_any "\n    Total Swarm reclaimed space:"
    (Or.inr rfl) (singleNodes (fun addr => imagePrune env addr all) nodes 0 st) h hgt hval
  exact ⟨evs1, h1, hc ▸ hp⟩

/-! ## Lemmas: the run as a whole -/

theorem Adds.grows {k : Nat} {st st1 : State} (h : Adds k st st1) :
    st.trace <+: st1.trace := by
  obtain ⟨_, evs, ht, _⟩ := h
  exact ⟨evs, ht.symm⟩

theorem verifyOK_grows (force : Bool) (st : State) :
    st.trace <+: (verifyOK force st).2.trace := by
  cases force with
  | true => rw [verifyOK_force]
  | false =>
    obtain ⟨evs, rest, h, _, _⟩ := verifyOK_ask st
    rw [h]
    exact ⟨evs, rfl⟩

theorem SwarmNodes_grows (env : Env) (host : String) (st : State) :
    st.trace <+: (SwarmNodes env host st).2.trace := by
  rcases DockerClient_cases env host with ⟨cli, hc⟩ | ⟨e, he⟩
  · rw [SwarmNodes_cli hc]
    exact ⟨_, rfl⟩
  · rw [SwarmNodes_panic he]

theorem andThen_grows {α β : Type} {tr : List Event} (x : Result α × State)
    (f : α → State → Result β × State) (hx : tr <+: x.2.trace)
    (hf : ∀ a st1, st1.trace <+: (f a st1).2.trace) : tr <+: (andThen x f).2.trace := by
  obtain ⟨r, st1⟩ := x
  cases r with
  | ok a => exact hx.trans (hf a st1)
  | exit c => exact hx
  | panic e => exact hx

theorem guarded_grows (env : Env) (host : String) (force : Bool)
    (body : List Node → State → Result (Option ExitError) × State)
    (hbody : ∀ nodes st1, Adds 3 st1 (body nodes st1).2) (st : State) :
    (validate env host st).2.trace <+: (guarded env host force body st).2.trace := by
  unfold guarded
  refine andThen_grows _ _ (List.prefix_refl _) ?_
  intro _ st1
  refine andThen_grows _ _ (verifyOK_grows force st1) ?_
  intro ok st2
  cases ok with
  | false => exact List.prefix_refl _
  | true =>
    exact andThen_grows _ _ (SwarmNodes_grows env host st2)
      (fun nodes st3 => (hbody nodes st3).grows)

theorem validate_first_event {env : Env} {host : String} {cli : Client}
    (h : DockerClient env host = .ok cli) (st : State) :
    st.trace ++ [Event.call cli .Info] <+: (validate env host st).2.trace := by
  unfold validate
  refine andThen_grows _ _ ?_ ?_
  · unfold amISwarmManager
    rw [h]
    simp only [State.emit]
    cases env.Info st.trace cli with
    | error err => exact List.prefix_refl _
    | ok info =>
      dsimp only
      cases env.NodeInspectWithRaw (st.trace ++ [Event.call cli Request.Info]) cli
          info.SwarmNodeID with
      | error err => exact ⟨_, rfl⟩
      | ok node =>
        dsimp only
        split
        · exact ⟨_, rfl⟩
        · split <;> exact ⟨_, rfl⟩
  · intro r st1
    obtain ⟨b, err⟩ := r
    cases err with
    | some e => exact ⟨_, rfl⟩
    | none =>
      cases b with
      | true => exact List.prefix_refl _
      | false => exact ⟨_, rfl⟩

theorem validate_ok_state {env : Env} {host : String} {st st1 : State}
    (h : validate env host st = (.ok (), st1)) :
    st1.stdin = st.stdin ∧ ∃ evs : List Event, st1.trace = st.trace ++ evs ∧
      ∀ e ∈ evs, ∀ p, phase e = some p → p = 0 := by
  obtain ⟨cli, hc, _⟩ := validate_ok_inv h
  obtain ⟨evs, hv, hp, _⟩ := validate_cli hc st
  rw [h] at hv
  have h2 := congrArg Prod.snd hv
  simp only at h2
  subst h2
  exact ⟨rfl, evs, rfl, hp⟩

theorem enumerates {env : Env} {host : String} {cli : Client}
    (hc : DockerClient env host = .ok cli)
    (body : List Node → State → Result (Option ExitError) × State)
    (hbody : ∀ nodes st1, Adds 3 st1 (body nodes st1).2) (st2 : State) :
    Event.call cli .NodeList ∈ (andThen (SwarmNodes env host st2) body).2.trace ∧
    Adds 3 ⟨st2.trace ++ [.call cli .NodeList], st2.stdin⟩
      (andThen (SwarmNodes env host st2) body).2 := by
  rw [SwarmNodes_cli hc st2]
  cases env.NodeList st2.trace cli with
  | error err => exact ⟨by simp, Adds.refl 3 _⟩
  | ok nodes =>
    have ha := hbody nodes ⟨st2.trace ++ [.call cli .NodeList], st2.stdin⟩
    refine ⟨?_, ha⟩
    obtain ⟨rest, hrest⟩ := ha.grows
    simp only [andThen_ok]
    rw [← hrest]
    simp

theorem tlsOptionsPassed_eq_none (tls : Options) :
    tlsOptionsPassed tls = none ↔ (tls.KeyFile = "" ∨ tls.CAFile = "" ∨ tls.CertFile = "") := by
  unfold tlsOptionsPassed
  split <;> simp_all

theorem newHTTPClient_some {env : Env} {host : String} {o : Options} {h : HTTPClient}
    (hh : newHTTPClient env host (some o) = .ok h) :
    ∃ cfg, env.tlsconfigClient o = .ok cfg ∧ h.Transport.TLSClientConfig = some cfg := by
  unfold newHTTPClient at hh
  dsimp only at hh
  cases hc : env.tlsconfigClient o with
  | error e => rw [hc] at hh; cases hh
  | ok cfg =>
    rw [hc] at hh
    dsimp only at hh
    cases hp : env.ParseHost host with
    | error e => rw [hp] at hh; cases hh
    | ok p =>
      obtain ⟨proto, addr, base⟩ := p
      rw [hp] at hh
      cases hh
      exact ⟨cfg, rfl, rfl⟩

/-! ## Lemmas: how the per-node part ends -/

theorem networksNodes_ok (env : Env) (nodes : List Node) (hc : connects env nodes)
    (st : State) : ∃ st1, networksNodes env nodes st = (.ok (), st1) := by
  induction nodes generalizing st with
  | nil => exact ⟨st, rfl⟩
  | cons n rest ih =>
    obtain ⟨cli, hcli⟩ := hc n (List.mem_cons_self _ _)
    obtain ⟨err, ss, h⟩ := networkPrune_ok hcli (st.emit (.println (nodeHeader n)))
    unfold networksNodes
    simp only [h, andThen_ok]
    exact ih (fun m hm => hc m (List.mem_cons_of_mem _ hm)) _

theorem dfNodes_ok (env : Env) (verbose : Bool) (nodes : List Node) (hc : connects env nodes)
    (st : State) : ∃ st1, dfNodes env verbose nodes st = (.ok (), st1) := by
  induction nodes generalizing st with
  | nil => exact ⟨st, rfl⟩
  | cons n rest ih =>
    obtain ⟨cli, hcli⟩ := hc n (List.mem_cons_self _ _)
    obtain ⟨err, evs, h, _⟩ := df_ok verbose hcli (st.emit (.println
      ("########## " ++ " " ++ n.Hostname ++ " " ++ " " ++ " " ++ n.Role)))
    unfold dfNodes
    simp only [h, andThen_ok]
    exact ih (fun m hm => hc m (List.mem_cons_of_mem _ hm)) _

theorem body_returns (env : Env) (cmd : Command) (nodes : List Node)
    (hc : connects env nodes) (st : State) : (body env cmd nodes st).1 = .ok none := by
  by_cases ht : cmd.hasTotal = true
  · obtain ⟨subs, evs, h, _⟩ := body_total_ok env cmd ht nodes hc st
    rw [h]
  · cases cmd with
    | networks force =>
      obtain ⟨st1, h⟩ := networksNodes_ok env nodes hc st
      simp [body, h]
    | df verbose =>
      obtain ⟨st1, h⟩ := dfNodes_ok env verbose nodes hc st
      simp [body, h]
    | _ => simp [Command.hasTotal] at ht

theorem panic_in_rest {env : Env} {n : Node} {rest : List Node} {cli : Client}
    (hcli : DockerClient env (nodeAddr n) = .ok cli)
    (h : ∃ m ∈ n :: rest, ∃ e, DockerClient env (nodeAddr m) = .panic e) :
    ∃ m ∈ rest, ∃ e, DockerClient env (nodeAddr m) = .panic e := by
  obtain ⟨m, hm, e, he⟩ := h
  rcases List.mem_cons.1 hm with rfl | hm
  · rw [hcli] at he
    cases he
  · exact ⟨m, hm, e, he⟩

theorem singleNodes_panics (env : Env)
    (op : String → State → Result (Nat × Option String) × State)
    (hok : ∀ host cli st, DockerClient env host = .ok cli → ∃ r st1, op host st = (.ok r, st1))
    (hpanic : ∀ host e st, DockerClient env host = .panic e → op host st = (.panic e, st))
    (nodes : List Node) (h : ∃ m ∈ nodes, ∃ e, DockerClient env (nodeAddr m) = .panic e)
    (total : Nat) (st : State) : ∃ e, (singleNodes op nodes total st).1 = .panic e := by
  induction nodes generalizing total st with
  | nil =>
    obtain ⟨m, hm, _⟩ := h
    cases hm
  | cons n rest ih =>
    rcases DockerClient_cases env (nodeAddr n) with ⟨cli, hcli⟩ | ⟨e, he⟩
    · obtain ⟨r, st1, hr⟩ := hok _ cli (st.emit (.println (nodeHeader n))) hcli
      unfold singleNodes singleNode
      simp only [hr, andThen_ok]
      exact ih (panic_in_rest hcli h) _ _
    · refine ⟨e, ?_⟩
      unfold singleNodes singleNode
      simp only [hpanic _ e _ he, andThen_panic]

theorem systemNodes_panics (env : Env) (all : Bool) (nodes : List Node)
    (h : ∃ m ∈ nodes, ∃ e, DockerClient env (nodeAddr m) = .panic e)
    (total : Nat) (st : State) : ∃ e, (systemNodes env all nodes total st).1 = .panic e := by
  induction nodes generalizing total st with
  | nil =>
    obtain ⟨m, hm, _⟩ := h
    cases hm
  | cons n rest ih =>
    rcases DockerClient_cases env (nodeAddr n) with ⟨cli, hcli⟩ | ⟨e, he⟩
    · obtain ⟨sub, evs, hr, _⟩ := systemNode_ok env all n hcli total st
      unfold systemNodes
      simp only [hr, andThen_ok]
      exact ih (panic_in_rest hcli h) _ _
    · refine ⟨e, ?_⟩
      unfold systemNodes systemNode
      simp only [containerPrune_panic he, andThen_panic]

theorem networksNodes_panics (env : Env) (nodes : List Node)
    (h : ∃ m ∈ nodes, ∃ e, DockerClient env (nodeAddr m) = .panic e)
    (st : State) : ∃ e, (networksNodes env nodes st).1 = .panic e := by
  induction nodes generalizing st with
  | nil =>
    obtain ⟨m, hm, _⟩ := h
    cases hm
  | cons n rest ih =>
    rcases DockerClient_cases env (nodeAddr n) with ⟨cli, hcli⟩ | ⟨e, he⟩
    · obtain ⟨err, ss, hr⟩ := networkPrune_ok hcli (st.emit (.println (nodeHeader n)))
      unfold networksNodes
      simp only [hr, andThen_ok]
      exact ih (panic_in_rest hcli h) _
    · refine ⟨e, ?_⟩
      unfold networksNodes
      simp only [networkPrune_panic he, andThen_panic]

theorem dfNodes_panics (env : Env) (verbose : Bool) (nodes : List Node)
    (h : ∃ m ∈ nodes, ∃ e, DockerClient env (nodeAddr m) = .panic e)
    (st : State) : ∃ e, (dfNodes env verbose nodes st).1 = .panic e := by
  induction nodes generalizing st with
  | nil =>
    obtain ⟨m, hm, _⟩ := h
    cases hm
  | cons n rest ih =>
    rcases DockerClient_cases env (nodeAddr n) with ⟨cli, hcli⟩ | ⟨e, he⟩
    · obtain ⟨err, evs, hr, _⟩ := df_ok verbose hcli (st.emit (.println
        ("########## " ++ " " ++ n.Hostname ++ " " ++ " " ++ " " ++ n.Role)))
      unfold dfNodes
      simp only [hr, andThen_ok]
      exact ih (panic_in_rest hcli h) _
    · refine ⟨e, ?_⟩
      unfold dfNodes
      simp only [df_panic verbose he, andThen_panic]

theorem andThen_fst_panic {α β : Type} (x : Result α × State)
    (f : α → State → Result β × State) (h : ∃ e, x.1 = .panic e) :
    ∃ e, (andThen x f).1 = .panic e := by
  obtain ⟨e, he⟩ := h
  obtain ⟨r, st⟩ := x
  simp only at he
  subst he
  exact ⟨e, rfl⟩

theorem body_panics (env : Env) (cmd : Command) (nodes : List Node)
    (h : ∃ m ∈ nodes, ∃ e, DockerClient env (nodeAddr m) = .panic e) (st : State) :
    ∃ e, (body env cmd nodes st).1 = .panic e := by
  cases cmd with
  | system force all => exact andThen_fst_panic _ _ (systemNodes_panics env all nodes h 0 st)
  | containers force =>
    refine andThen_fst_panic _ _ (singleNodes_panics env _ ?_ ?_ nodes h 0 st)
    · intro host cli st1 hc
      obtain ⟨sr, err, ss, hr, _⟩ := containerPrune_ok hc st1
      exact ⟨_, _, hr⟩
    · intro host e st1 he
      exact containerPrune_panic he st1
  | images force all =>
    refine andThen_fst_panic _ _ (singleNodes_panics env _ ?_ ?_ nodes h 0 st)
    · intro host cli st1 hc
      obtain ⟨sr, err, ss, hr, _⟩ := imagePrune_ok all hc st1
      exact ⟨_, _, hr⟩
    · intro host e st1 he
      exact imagePrune_panic all he st1
  | volumes force =>
    refine andThen_fst_panic _ _ (singleNodes_panics env _ ?_ ?_ nodes h 0 st)
    · intro host cli st1 hc
      obtain ⟨sr, err, ss, hr, _⟩ := volumePrune_ok hc st1
      exact ⟨_, _, hr⟩
    · intro host e st1 he
      exact volumePrune_panic he st1
  | networks force => exact andThen_fst_panic _ _ (networksNodes_panics env nodes h st)
  | df verbose => exact andThen_fst_panic _ _ (dfNodes_panics env verbose nodes h st)

/-! ## Lemmas: the prompts of the confirmation -/

theorem prompts_append (a b : List Event) : prompts (a ++ b) = prompts a ++ prompts b := by
  simp [prompts, List.filterMap_append]

theorem prompts_replicate (n : Nat) (s : String) :
    prompts (List.replicate n (Event.prompt s)) = List.replicate n s := by
  induction n with
  | zero => rfl
  | succ n ih =>
    rw [List.replicate_succ, List.replicate_succ]
    simp only [prompts, List.filterMap_cons] at ih ⊢
    rw [ih]

theorem prompts_nil_of_phase (evs : List Event)
    (h : ∀ e ∈ evs, ∀ p, phase e = some p → p ≠ 1) : prompts evs = [] := by
  induction evs with
  | nil => rfl
  | cons e rest ih =>
    have hr := ih (fun x hx => h x (List.mem_cons_of_mem _ hx))
    have he := h e (List.mem_cons_self _ _)
    cases e with
    | prompt s => exact absurd rfl (he 1 rfl)
    | _ => simpa [prompts] using hr

theorem askToConfirmLoop_events (s : String) (lines : List String) (tr : List Event) :
    askToConfirmLoop s lines tr =
      ((match firstAnswer lines with
        | some b => .ok b
        | none => .exit 1),
        ⟨tr ++ (List.replicate (promptCount lines) (Event.prompt (s ++ " [y/N]: ")) ++
          (if firstAnswer lines = none then [Event.logFatal "EOF"] else [])),
          lines.drop (promptCount lines)⟩) := by
  induction lines generalizing tr with
  | nil => simp [askToConfirmLoop, firstAnswer, promptCount]
  | cons line rest ih =>
    by_cases hy : TrimSpace line = "y"
    · simp [askToConfirmLoop, firstAnswer, promptCount, hy]
    · by_cases hn : TrimSpace line = "N"
      · simp [askToConfirmLoop, firstAnswer, promptCount, hn]
      · simp only [askToConfirmLoop, firstAnswer, promptCount, hy, hn, if_false, or_self]
        rw [ih]
        simp [List.replicate_succ, List.append_assoc]

theorem verifyOK_ask_events (st : State) :
    verifyOK false st =
      ((match firstAnswer st.stdin with
        | some b => .ok b
        | none => .exit 1),
        ⟨st.trace ++ (List.replicate (promptCount st.stdin)
            (Event.prompt ("Are you sure, you want to do this?" ++ " [y/N]: ")) ++
          (if firstAnswer st.stdin = none then [Event.logFatal "EOF"] else [])),
          st.stdin.drop (promptCount st.stdin)⟩) := by
  simp only [verifyOK, askToConfirm, askToConfirmLoop_events]
  cases firstAnswer st.stdin with
  | none => simp
  | some b => cases b <;> simp

theorem systemNodes_calls_exact (env : Env) (all : Bool) (nodes : List Node) (total : Nat)
    (st : State) :
    ∃ evs : List Event, (systemNodes env all nodes total st).2 = ⟨st.trace ++ evs, st.stdin⟩ ∧
      calls evs = (nodes.takeWhile (canConnect env)).flatMap (systemCalls all) := by
  induction nodes generalizing total st with
  | nil => exact ⟨[], by simp [systemNodes], rfl⟩
  | cons n rest ih =>
    rcases DockerClient_cases env (nodeAddr n) with ⟨cli, hcli⟩ | ⟨e, he⟩
    · obtain ⟨sr, evs1, hone, _, _, hcalls1⟩ := systemNode_ok env all n hcli total st
      obtain ⟨evs2, hrest, hc2⟩ := ih (addU64 total sr) ⟨st.trace ++ evs1, st.stdin⟩
      have hcan : canConnect env n = true := by simp [canConnect, hcli]
      refine ⟨evs1 ++ evs2, ?_, ?_⟩
      · simp only [systemNodes, hone, andThen_ok, hrest]
        simp [List.append_assoc]
      · simp [calls_append, hcalls1, hc2, List.takeWhile_cons, hcan, List.flatMap_cons]
    · have hcan : canConnect env n = false := by simp [canConnect, he]
      refine ⟨[.println (nodeHeader n)], ?_, ?_⟩
      · unfold systemNodes systemNode
        simp only [containerPrune_panic he, andThen_panic]
        rfl
      · simp [List.takeWhile_cons, hcan]

theorem system_body_calls_exact (env : Env) (all : Bool) (force : Bool) (nodes : List Node)
    (st : State) :
    ∃ evs : List Event,
      (body env (.system force all) nodes st).2 = ⟨st.trace ++ evs, st.stdin⟩ ∧
      calls evs = (nodes.takeWhile (canConnect env)).flatMap (systemCalls all) := by
  obtain ⟨evs, h, hc⟩ := systemNodes_calls_exact env all nodes 0 st
  obtain ⟨evs0, h0, _, hgt, hval⟩ := systemNodes_any env all nodes 0 st
  have hev : evs0 = evs := by
    have := h0.symm.trans h
    simpa using this
  subst hev
  obtain ⟨evs1, h1, hc1, _⟩ := andThen_total_any "\n  Total Swarm reclaimed space:"
    (Or.inl rfl) (systemNodes env all nodes 0 st) h hgt hval
  exact ⟨evs1, h1, hc1.trans hc⟩

theorem not_connects {env : Env} {nodes : List Node} (h : ¬ connects env nodes) :
    ∃ m ∈ nodes, ∃ e, DockerClient env (nodeAddr m) = .panic e := by
  unfold connects at h
  push_neg at h
  obtain ⟨m, hm, hno⟩ := h
  rcases DockerClient_cases env (nodeAddr m) with ⟨cli, hcli⟩ | ⟨e, he⟩
  · exact absurd hcli (hno cli)
  · exact ⟨m, hm, e, he⟩

/-! ## The claims -/

/-- C1. In a run of `system`, `containers`, `images` or `volumes` that passes the guard
with the node list `nodes`, whatever each remote prune call answers (a report or an
error): every grand total the run prints is the sum, modulo `2 ^ 64`, of the per-node
subtotals it prints; and when a connection can be built to every node the run ends
normally, prints one subtotal per node and exactly one grand total, which is 0 when there
is no node. -/
theorem grand_total_is_sum_of_subtotals (env : Env) (g : Globals) (cmd : Command)
    (stdin : List String) (nodes : List Node) (st3 : State) (hcmd : cmd.hasTotal = true)
    (hguard : passesGuard env g.host cmd.force ⟨[], stdin⟩ nodes st3) :
    (∀ t ∈ grandTotals (run env g cmd ⟨[], stdin⟩).2.trace,
      t = (nodeSubtotals (run env g cmd ⟨[], stdin⟩).2.trace).sum % 2 ^ 64) ∧
    (connects env nodes →
      (run env g cmd ⟨[], stdin⟩).1 = .ok none ∧
      (nodeSubtotals (run env g cmd ⟨[], stdin⟩).2.trace).length = nodes.length ∧
      grandTotals (run env g cmd ⟨[], stdin⟩).2.trace =
        [(nodeSubtotals (run env g cmd ⟨[], stdin⟩).2.trace).sum % 2 ^ 64] ∧
      (nodes = [] → grandTotals (run env g cmd ⟨[], stdin⟩).2.trace = [0])) := by
  obtain ⟨hrun, gevs, hg, _, hz⟩ := passesGuard_inv hguard (body env cmd)
  have hgz := sizes_nil_of_not_isSize gevs hz
  simp only [List.nil_append] at hg
  rw [run_eq_guarded, hrun]
  refine ⟨?_, ?_⟩
  · obtain ⟨evs, hbody, hany⟩ := body_any env cmd hcmd nodes st3
    rw [hbody]
    intro t ht
    rw [grandTotals_append, hg, hgz.2, List.nil_append] at ht
    rw [nodeSubtotals_append, hg, hgz.1, List.nil_append]
    exact hany t ht
  · intro hconn
    obtain ⟨subs, evs, hbody, hlen, hsub, hgt⟩ := body_total_ok env cmd hcmd nodes hconn st3
    rw [hbody]
    have hns : nodeSubtotals (st3.trace ++ evs) = subs := by
      rw [nodeSubtotals_append, hg, hgz.1, hsub, List.nil_append]
    have hgt2 : grandTotals (st3.trace ++ evs) = [subs.sum % 2 ^ 64] := by
      rw [grandTotals_append, hg, hgz.2, hgt, List.nil_append]
    refine ⟨rfl, ?_, ?_, ?_⟩
    · simp [hns, hlen]
    · simp [hns, hgt2]
    · intro hnil
      subst hnil
      have : subs = [] := List.length_eq_zero.1 (by simpa using hlen)
      simp [hgt2, this]

/-- C1, at an instance: the `system` run of the two-node scenario with `--force`. -/
theorem grand_total_is_sum_of_subtotals_witness :
    (run scenarioEnv scenarioGlobals (.system true false) ⟨[], []⟩).1 = .ok none ∧
    (nodeSubtotals (run scenarioEnv scenarioGlobals (.system true false) ⟨[], []⟩).2.trace).length
      = [nodeA, nodeB].length ∧
    grandTotals (run scenarioEnv scenarioGlobals (.system true false) ⟨[], []⟩).2.trace =
      [(nodeSubtotals
        (run scenarioEnv scenarioGlobals (.system true false) ⟨[], []⟩).2.trace).sum % 2 ^ 64] ∧
    ([nodeA, nodeB] = [] →
      grandTotals (run scenarioEnv scenarioGlobals (.system true false) ⟨[], []⟩).2.trace = [0]) :=
  (grand_total_is_sum_of_subtotals scenarioEnv scenarioGlobals (.system true false) []
    [nodeA, nodeB] _ rfl ⟨_, _, rfl, rfl, rfl⟩).2
    (by
      intro n hn
      simp only [List.mem_cons, List.mem_singleton, List.not_mem_nil, or_false] at hn
      rcases hn with rfl | rfl
      · exact ⟨_, rfl⟩
      · exact ⟨_, rfl⟩)

/-- C2, at the failing input: one round of the `system` loop on a node where the image
prune reclaims 5 bytes and the container, network and volume prune calls fail.  The
network prune returns its error, and the subtotal of the node is 10, not 5: the step
after the failed network prune added 5. -/
theorem failed_network_prune_adds_image_bytes :
    (∃ st1, imagePrune imageOnlyEnv (nodeAddr nodeA) false
      ⟨[.println (nodeHeader nodeA)], []⟩ = (.ok (5, none), st1)) ∧
    (∃ st1, networkPrune imageOnlyEnv (nodeAddr nodeA) ⟨[], []⟩ =
      (.ok (some "transport error"), st1)) ∧
    (∃ st1, containerPrune imageOnlyEnv (nodeAddr nodeA) ⟨[], []⟩ =
      (.ok (0, some "transport error"), st1)) ∧
    (∃ st1, volumePrune imageOnlyEnv (nodeAddr nodeA) ⟨[], []⟩ =
      (.ok (0, some "transport error"), st1)) ∧
    (systemNode imageOnlyEnv false nodeA 0 ⟨[], []⟩).1 = .ok 10 ∧
    nodeSubtotals (systemNode imageOnlyEnv false nodeA 0 ⟨[], []⟩).2.trace = [10] :=
  ⟨⟨_, rfl⟩, ⟨_, rfl⟩, ⟨_, rfl⟩, ⟨_, rfl⟩, by decide, by decide⟩

/-- C3, as the code has it. In a run of `system` that passes the guard with the node list
`nodes`, whatever the prune calls answer, the prune calls made through the client are
exactly: for each node in the order of the list, up to the first node to whose address no
connection can be built, the container, image, network and volume prune of that node,
each against `"tcp://" + hostname + ":2375"`.  So they are always an initial part of the
sequence for the whole list; when a connection can be built to every node they are the
whole sequence, four calls per node, none dropped or moved after an error; and otherwise
the run ends with a panic. -/
theorem system_prune_calls_in_order (env : Env) (g : Globals) (force all : Bool)
    (stdin : List String) (nodes : List Node) (st3 : State)
    (hguard : passesGuard env g.host force ⟨[], stdin⟩ nodes st3) :
    pruneCalls (run env g (.system force all) ⟨[], stdin⟩).2.trace =
      (nodes.takeWhile (canConnect env)).flatMap (fun n =>
        [("tcp://" ++ n.Hostname ++ ":2375", Request.ContainersPrune),
         ("tcp://" ++ n.Hostname ++ ":2375", Request.ImagesPrune (!all)),
         ("tcp://" ++ n.Hostname ++ ":2375", Request.NetworksPrune),
         ("tcp://" ++ n.Hostname ++ ":2375", Request.VolumesPrune)]) ∧
    pruneCalls (run env g (.system force all) ⟨[], stdin⟩).2.trace <+:
      nodes.flatMap (fun n =>
        [("tcp://" ++ n.Hostname ++ ":2375", Request.ContainersPrune),
         ("tcp://" ++ n.Hostname ++ ":2375", Request.ImagesPrune (!all)),
         ("tcp://" ++ n.Hostname ++ ":2375", Request.NetworksPrune),
         ("tcp://" ++ n.Hostname ++ ":2375", Request.VolumesPrune)]) ∧
    (connects env nodes →
      pruneCalls (run env g (.system force all) ⟨[], stdin⟩).2.trace =
        nodes.flatMap (fun n =>
          [("tcp://" ++ n.Hostname ++ ":2375", Request.ContainersPrune),
           ("tcp://" ++ n.Hostname ++ ":2375", Request.ImagesPrune (!all)),
           ("tcp://" ++ n.Hostname ++ ":2375", Request.NetworksPrune),
           ("tcp://" ++ n.Hostname ++ ":2375", Request.VolumesPrune)]) ∧
      (pruneCalls (run env g (.system force all) ⟨[], stdin⟩).2.trace).length =
        4 * nodes.length) ∧
    (¬ connects env nodes →
      ∃ e, (run env g (.system force all) ⟨[], stdin⟩).1 = .panic e) := by
  obtain ⟨hrun, gevs, hg, hp, _⟩ := passesGuard_inv hguard (body env (.system force all))
  have hgp := (pruneCalls_nil_of_phase gevs hp).1
  simp only [List.nil_append] at hg
  have hrun2 : run env g (.system force all) ⟨[], stdin⟩ =
      body env (.system force all) nodes st3 := by
    rw [run_eq_guarded]
    exact hrun
  rw [hrun2]
  refine ⟨?_, ?_, ?_, ?_⟩
  · obtain ⟨evs, hbody, hcalls⟩ := system_body_calls_exact env all force nodes st3
    rw [hbody]
    rw [pruneCalls_append, hg, hgp, List.nil_append, pruneCalls, hcalls,
      filter_isPrune_systemCalls]
    rfl
  · obtain ⟨evs, hbody, hpre⟩ := system_body_calls_prefix env all force nodes st3
    rw [hbody]
    have hpc : pruneCalls (st3.trace ++ evs) = (calls evs).filter fun x => x.2.isPrune := by
      rw [pruneCalls_append, hg, hgp, List.nil_append, pruneCalls]
    rw [hpc]
    have := hpre.filter (fun x => x.2.isPrune)
    rw [filter_isPrune_systemCalls] at this
    exact this
  · intro hconn
    obtain ⟨evs, hbody, hcalls⟩ := system_body_calls env all force nodes hconn st3
    rw [hbody]
    have hpc : pruneCalls (st3.trace ++ evs) = nodes.flatMap (systemCalls all) := by
      rw [pruneCalls_append, hg, hgp, List.nil_append, pruneCalls, hcalls,
        filter_isPrune_systemCalls]
    exact ⟨hpc, by rw [hpc, length_systemCalls]⟩
  · intro hno
    exact body_panics env (.system force all) nodes (not_connects hno) st3

/-- C3, as the code has it, at an instance: the forced `system` run of the two-node
scenario, where every call on the second node fails. -/
theorem system_prune_calls_in_order_witness :
    pruneCalls (run scenarioEnv scenarioGlobals (.system true false) ⟨[], []⟩).2.trace =
      [nodeA, nodeB].flatMap (fun n =>
        [("tcp://" ++ n.Hostname ++ ":2375", Request.ContainersPrune),
         ("tcp://" ++ n.Hostname ++ ":2375", Request.ImagesPrune (!false)),
         ("tcp://" ++ n.Hostname ++ ":2375", Request.NetworksPrune),
         ("tcp://" ++ n.Hostname ++ ":2375", Request.VolumesPrune)]) ∧
    (pruneCalls (run scenarioEnv scenarioGlobals (.system true false) ⟨[], []⟩).2.trace).length =
      4 * [nodeA, nodeB].length :=
  (system_prune_calls_in_order scenarioEnv scenarioGlobals true false [] [nodeA, nodeB] _
    ⟨_, _, rfl, rfl, rfl⟩).2.2.1
    (by
      intro n hn
      simp only [List.mem_cons, List.mem_singleton, List.not_mem_nil, or_false] at hn
      rcases hn with rfl | rfl
      · exact ⟨_, rfl⟩
      · exact ⟨_, rfl⟩)

/-- C3, as stated, fails: the node list call answers three nodes, the second with a host
name whose address the client library cannot parse.  The forced `system` run passes the
guard, makes the four prune calls of the first node and then panics: 4 prune calls, not
12, and none for the third node. -/
theorem unparsable_node_address_stops_the_calls :
    (∃ st3, passesGuard badHostEnv scenarioGlobals.host true ⟨[], []⟩
      [nodeA, nodeBad, nodeB] st3) ∧
    (run badHostEnv scenarioGlobals (.system true false) ⟨[], []⟩).1 =
      .panic "invalid character in host name" ∧
    pruneCalls (run badHostEnv scenarioGlobals (.system true false) ⟨[], []⟩).2.trace =
      [("tcp://node-a:2375", .ContainersPrune), ("tcp://node-a:2375", .ImagesPrune true),
       ("tcp://node-a:2375", .NetworksPrune), ("tcp://node-a:2375", .VolumesPrune)] ∧
    (pruneCalls (run badHostEnv scenarioGlobals (.system true false) ⟨[], []⟩).2.trace).length ≠
      4 * [nodeA, nodeBad, nodeB].length :=
  ⟨⟨_, _, _, rfl, rfl, rfl⟩, by decide, by decide, by decide⟩

/-- C4. In every run of every command the events come in the order role check,
confirmation prompt, node list call, per-node calls; when a connection to the manager
address exists, the first event is the info query of the role check; and when the role
check does not confirm a manager (a query fails, the node has no manager status, or its
role is not "manager") the run ends with exit status 1 and its trace holds no prompt, no
node list call and no prune call. -/
theorem role_check_precedes_everything (env : Env) (g : Globals) (cmd : Command)
    (stdin : List String) :
    List.Pairwise (fun a b => a ≤ b)
      ((run env g cmd ⟨[], stdin⟩).2.trace.filterMap phase) ∧
    (∀ cli, DockerClient env g.host = .ok cli →
      (run env g cmd ⟨[], stdin⟩).2.trace.head? = some (.call cli .Info)) ∧
    (∀ cli, DockerClient env g.host = .ok cli → confirmsManager env cli [] = false →
      (run env g cmd ⟨[], stdin⟩).1 = .exit 1 ∧
      exitStatus (run env g cmd ⟨[], stdin⟩).1 = 1 ∧
      ∀ e ∈ (run env g cmd ⟨[], stdin⟩).2.trace,
        phase e ≠ some 1 ∧ phase e ≠ some 2 ∧ phase e ≠ some 3) := by
  rw [run_eq_guarded]
  refine ⟨?_, ?_, ?_⟩
  · exact (guarded_ordered env g.host cmd.force (body env cmd) (body_adds env cmd) ⟨[], stdin⟩
      Ordered.nil).1
  · intro cli hc
    have h1 := validate_first_event hc ⟨[], stdin⟩
    have h2 := guarded_grows env g.host cmd.force (body env cmd) (body_adds env cmd)
      ⟨[], stdin⟩
    obtain ⟨rest, hrest⟩ := h1.trans h2
    rw [← hrest]
    rfl
  · intro cli hc hn
    obtain ⟨evs, hg, hp⟩ :=
      guarded_not_confirmed hc cmd.force (body env cmd) ⟨[], stdin⟩ hn
    rw [hg]
    refine ⟨rfl, rfl, ?_⟩
    intro e he
    simp only [List.nil_append] at he
    refine ⟨?_, ?_, ?_⟩ <;>
    · intro hph
      have := hp e he _ hph
      omega

/-- C4, at an instance: the `system` run started against a worker node. -/
theorem role_check_precedes_everything_witness :
    (run workerEnv scenarioGlobals (.system false false) ⟨[], ["y\n"]⟩).1 = .exit 1 ∧
    exitStatus (run workerEnv scenarioGlobals (.system false false) ⟨[], ["y\n"]⟩).1 = 1 ∧
    ∀ e ∈ (run workerEnv scenarioGlobals (.system false false) ⟨[], ["y\n"]⟩).2.trace,
      phase e ≠ some 1 ∧ phase e ≠ some 2 ∧ phase e ≠ some 3 :=
  (role_check_precedes_everything workerEnv scenarioGlobals (.system false false)
    ["y\n"]).2.2 _ rfl rfl

/-- C5, as the code has it. In a run that passed the role check: without `--force`, the
answer is the first input line that is "y" or "N" once trimmed; the prompt "Are you sure,
you want to do this? [y/N]: " is printed once before every line read, so it is repeated
after every other line, and once more before a read that meets the end of the input, and
the lines read are consumed.  On "N" the run ends with the exit error of code 0 and the
message "Ok, will not do anything. exiting now.", on end of input it ends with `log.Fatal`
and exit status 1, and in both cases no node list call and no prune call is issued; on "y"
the node list call is issued.  With `--force` the node list call is issued, no prompt is
shown and no input is consumed. -/
theorem confirmation_guard (env : Env) (g : Globals) (cmd : Command) (stdin : List String)
    (st1 : State) (hv : validate env g.host ⟨[], stdin⟩ = (.ok (), st1)) :
    (cmd.force = false → firstAnswer stdin = some false →
      (run env g cmd ⟨[], stdin⟩).1 = .ok (some declined) ∧
      exitStatus (run env g cmd ⟨[], stdin⟩).1 = 0 ∧
      declined.message = "Ok, will not do anything. exiting now." ∧
      ∀ e ∈ (run env g cmd ⟨[], stdin⟩).2.trace, phase e ≠ some 2 ∧ phase e ≠ some 3) ∧
    (cmd.force = false → firstAnswer stdin = none →
      (run env g cmd ⟨[], stdin⟩).1 = .exit 1 ∧
      ∀ e ∈ (run env g cmd ⟨[], stdin⟩).2.trace, phase e ≠ some 2 ∧ phase e ≠ some 3) ∧
    (cmd.force = false → firstAnswer stdin = some true →
      ∃ cli, Event.call cli .NodeList ∈ (run env g cmd ⟨[], stdin⟩).2.trace) ∧
    (cmd.force = true →
      (∃ cli, Event.call cli .NodeList ∈ (run env g cmd ⟨[], stdin⟩).2.trace) ∧
      (∀ e ∈ (run env g cmd ⟨[], stdin⟩).2.trace, phase e ≠ some 1) ∧
      (run env g cmd ⟨[], stdin⟩).2.stdin = stdin) ∧
    (cmd.force = false →
      prompts (run env g cmd ⟨[], stdin⟩).2.trace =
        List.replicate (promptCount stdin) "Are you sure, you want to do this? [y/N]: " ∧
      (run env g cmd ⟨[], stdin⟩).2.stdin = stdin.drop (promptCount stdin)) ∧
    (cmd.force = false → firstAnswer stdin = none →
      (run env g cmd ⟨[], stdin⟩).2.trace.getLast? = some (.logFatal "EOF")) := by
  obtain ⟨cli, hc, _⟩ := validate_ok_inv hv
  obtain ⟨hstdin, e0, ht1, hp0⟩ := validate_ok_state hv
  simp only [List.nil_append] at ht1 hstdin
  have hask := verifyOK_ask_events st1
  rw [hstdin] at hask
  have hp1 : ∀ e ∈ List.replicate (promptCount stdin)
      (Event.prompt ("Are you sure, you want to do this?" ++ " [y/N]: ")) ++
      (if firstAnswer stdin = none then [Event.logFatal "EOF"] else []),
      ∀ p, phase e = some p → p = 1 := by
    intro e he p hph
    rcases List.mem_append.1 he with h | h
    · obtain ⟨_, rfl⟩ := List.mem_replicate.1 h
      simpa [phase] using hph.symm
    · split at h
      · rw [List.mem_singleton.1 h] at hph
        simp [phase] at hph
      · cases h
  have hpr0 : prompts st1.trace = [] := by
    rw [ht1]
    refine prompts_nil_of_phase e0 ?_
    intro e he p hph
    have := hp0 e he p hph
    omega
  have hpr1 : prompts (List.replicate (promptCount stdin)
      (Event.prompt ("Are you sure, you want to do this?" ++ " [y/N]: ")) ++
      (if firstAnswer stdin = none then [Event.logFatal "EOF"] else [])) =
      List.replicate (promptCount stdin) "Are you sure, you want to do this? [y/N]: " := by
    rw [prompts_append, prompts_replicate]
    split <;> simp [prompts]
  have hquiet : ∀ e ∈ st1.trace ++ (List.replicate (promptCount stdin)
      (Event.prompt ("Are you sure, you want to do this?" ++ " [y/N]: ")) ++
      (if firstAnswer stdin = none then [Event.logFatal "EOF"] else [])),
      phase e ≠ some 2 ∧ phase e ≠ some 3 := by
    intro e he
    rw [ht1] at he
    rcases List.mem_append.1 he with h | h
    · constructor <;>
      · intro hph
        have := hp0 e h _ hph
        omega
    · constructor <;>
      · intro hph
        have := hp1 e h _ hph
        omega
  rw [run_eq_guarded]
  refine ⟨?_, ?_, ?_, ?_, ?_, ?_⟩
  · intro hf ha
    have hg : guarded env g.host cmd.force (body env cmd) ⟨[], stdin⟩ =
        (.ok (some declined), ⟨st1.trace ++ (List.replicate (promptCount stdin)
          (Event.prompt ("Are you sure, you want to do this?" ++ " [y/N]: ")) ++
          (if firstAnswer stdin = none then [Event.logFatal "EOF"] else [])),
          stdin.drop (promptCount stdin)⟩) := by
      simp [guarded, hv, hf, hask, ha]
    rw [hg]
    exact ⟨rfl, rfl, rfl, hquiet⟩
  · intro hf ha
    have hg : guarded env g.host cmd.force (body env cmd) ⟨[], stdin⟩ =
        (.exit 1, ⟨st1.trace ++ (List.replicate (promptCount stdin)
          (Event.prompt ("Are you sure, you want to do this?" ++ " [y/N]: ")) ++
          (if firstAnswer stdin = none then [Event.logFatal "EOF"] else [])),
          stdin.drop (promptCount stdin)⟩) := by
      simp [guarded, hv, hf, hask, ha]
    rw [hg]
    exact ⟨rfl, hquiet⟩
  · intro hf ha
    have hg : guarded env g.host cmd.force (body env cmd) ⟨[], stdin⟩ =
        andThen (SwarmNodes env g.host ⟨st1.trace ++ (List.replicate (promptCount stdin)
          (Event.prompt ("Are you sure, you want to do this?" ++ " [y/N]: ")) ++
          (if firstAnswer stdin = none then [Event.logFatal "EOF"] else [])),
          stdin.drop (promptCount stdin)⟩) (body env cmd) := by
      simp [guarded, hv, hf, hask, ha]
    rw [hg]
    exact ⟨cli, (enumerates hc (body env cmd) (body_adds env cmd) _).1⟩
  · intro hf
    have hg : guarded env g.host cmd.force (body env cmd) ⟨[], stdin⟩ =
        andThen (SwarmNodes env g.host st1) (body env cmd) := by
      simp [guarded, hv, hf, verifyOK_force]
    rw [hg]
    obtain ⟨hmem, hs, evs, ht, hp3⟩ := enumerates hc (body env cmd) (body_adds env cmd) st1
    refine ⟨⟨cli, hmem⟩, ?_, ?_⟩
    · intro e he hph
      rw [ht, ht1] at he
      simp only [List.mem_append, List.mem_singleton] at he
      rcases he with (h | rfl) | h
      · have := hp0 e h _ hph
        omega
      · simp [phase] at hph
      · have := hp3 e h _ hph
        omega
    · rw [hs]
      exact hstdin
  · intro hf
    cases ha : firstAnswer stdin with
    | none =>
      have hg : guarded env g.host cmd.force (body env cmd) ⟨[], stdin⟩ =
          (.exit 1, ⟨st1.trace ++ (List.replicate (promptCount stdin)
            (Event.prompt ("Are you sure, you want to do this?" ++ " [y/N]: ")) ++
            (if firstAnswer stdin = none then [Event.logFatal "EOF"] else [])),
            stdin.drop (promptCount stdin)⟩) := by
        simp [guarded, hv, hf, hask, ha]
      rw [hg]
      exact ⟨by rw [prompts_append, hpr0, hpr1, List.nil_append], rfl⟩
    | some b =>
      cases b with
      | false =>
        have hg : guarded env g.host cmd.force (body env cmd) ⟨[], stdin⟩ =
            (.ok (some declined), ⟨st1.trace ++ (List.replicate (promptCount stdin)
              (Event.prompt ("Are you sure, you want to do this?" ++ " [y/N]: ")) ++
              (if firstAnswer stdin = none then [Event.logFatal "EOF"] else [])),
              stdin.drop (promptCount stdin)⟩) := by
          simp [guarded, hv, hf, hask, ha]
        rw [hg]
        exact ⟨by rw [prompts_append, hpr0, hpr1, List.nil_append], rfl⟩
      | true =>
        have hg : guarded env g.host cmd.force (body env cmd) ⟨[], stdin⟩ =
            andThen (SwarmNodes env g.host ⟨st1.trace ++ (List.replicate (promptCount stdin)
              (Event.prompt ("Are you sure, you want to do this?" ++ " [y/N]: ")) ++
              (if firstAnswer stdin = none then [Event.logFatal "EOF"] else [])),
              stdin.drop (promptCount stdin)⟩) (body env cmd) := by
          simp [guarded, hv, hf, hask, ha]
        rw [hg]
        obtain ⟨_, hs, evs, ht, hp3⟩ := enumerates hc (body env cmd) (body_adds env cmd)
          ⟨st1.trace ++ (List.replicate (promptCount stdin)
            (Event.prompt ("Are you sure, you want to do this?" ++ " [y/N]: ")) ++
            (if firstAnswer stdin = none then [Event.logFatal "EOF"] else [])),
            stdin.drop (promptCount stdin)⟩
        refine ⟨?_, hs⟩
        rw [ht]
        have hpr3 : prompts evs = [] := by
          refine prompts_nil_of_phase evs ?_
          intro e he p hph
          have := hp3 e he p hph
          omega
        simp only [prompts_append, hpr0, hpr1, hpr3, List.nil_append, List.append_nil]
        simp [prompts]
  · intro hf ha
    have hg : guarded env g.host cmd.force (body env cmd) ⟨[], stdin⟩ =
        (.exit 1, ⟨st1.trace ++ (List.replicate (promptCount stdin)
          (Event.prompt ("Are you sure, you want to do this?" ++ " [y/N]: ")) ++
          (if firstAnswer stdin = none then [Event.logFatal "EOF"] else [])),
          stdin.drop (promptCount stdin)⟩) := by
      simp [guarded, hv, hf, hask, ha]
    rw [hg]
    simp [ha, ← List.append_assoc]

/-- C5, as the code has it, at an instance: the `containers` run of the two-node scenario
with the input lines "n" and "N": the prompt is printed twice and the run is declined. -/
theorem confirmation_guard_witness :
    ((run scenarioEnv scenarioGlobals (.containers false) ⟨[], ["n\n", "N\n"]⟩).1 =
      .ok (some declined) ∧
    exitStatus (run scenarioEnv scenarioGlobals (.containers false) ⟨[], ["n\n", "N\n"]⟩).1
      = 0 ∧
    declined.message = "Ok, will not do anything. exiting now." ∧
    ∀ e ∈ (run scenarioEnv scenarioGlobals (.containers false) ⟨[], ["n\n", "N\n"]⟩).2.trace,
      phase e ≠ some 2 ∧ phase e ≠ some 3) ∧
    prompts (run scenarioEnv scenarioGlobals (.containers false) ⟨[], ["n\n", "N\n"]⟩).2.trace =
      ["Are you sure, you want to do this? [y/N]: ",
       "Are you sure, you want to do this? [y/N]: "] :=
  have h := confirmation_guard scenarioEnv scenarioGlobals (.containers false)
    ["n\n", "N\n"] _ rfl
  ⟨h.1 rfl (by decide), (h.2.2.2.2.1 rfl).1⟩

/-- C5, as stated, fails: without `--force`, at end of input the run ends with exit status
1, not 0; and after the line "no" the run is not over: with "y" on the next line it goes
on to the node list and issues prune calls. -/
theorem other_input_does_not_exit_zero :
    exitStatus (run scenarioEnv scenarioGlobals (.containers false) ⟨[], []⟩).1 = 1 ∧
    (run scenarioEnv scenarioGlobals (.containers false) ⟨[], []⟩).1 ≠ .ok (some declined) ∧
    exitStatus (run scenarioEnv scenarioGlobals (.containers false) ⟨[], ["n\n"]⟩).1 = 1 ∧
    pruneCalls
      (run scenarioEnv scenarioGlobals (.containers false) ⟨[], ["no\n", "y\n"]⟩).2.trace =
      [("tcp://node-a:2375", .ContainersPrune), ("tcp://node-b:2375", .ContainersPrune)] := by
  refine ⟨by decide, by decide, by decide, by decide⟩

/-- C6. In a run of `images` or `system` that passes the guard with the node list `nodes`,
the image prune requests are one per node, in order, each with `DanglingOnly` equal to the
negation of the `--all` flag of the run: true exactly without `--all`, false exactly with
it, so the requests for the two values of the flag differ.  The requests issued are always
an initial part of that sequence, and the whole of it when a connection can be built to
every node. -/
theorem image_prune_requests_follow_all_flag (env : Env) (g : Globals) (cmd : Command)
    (force all : Bool) (stdin : List String) (nodes : List Node) (st3 : State)
    (hcmd : cmd = .images force all ∨ cmd = .system force all)
    (hguard : passesGuard env g.host force ⟨[], stdin⟩ nodes st3) :
    imagePruneCalls (run env g cmd ⟨[], stdin⟩).2.trace <+:
      nodes.map (fun n => (nodeAddr n, Request.ImagesPrune (!all))) ∧
    (connects env nodes →
      imagePruneCalls (run env g cmd ⟨[], stdin⟩).2.trace =
        nodes.map (fun n => (nodeAddr n, Request.ImagesPrune (!all)))) ∧
    ((!all) = true ↔ all = false) ∧ ((!all) = false ↔ all = true) ∧
    Request.ImagesPrune (!true) ≠ Request.ImagesPrune (!false) := by
  refine ⟨?_, ?_, by cases all <;> simp, by cases all <;> simp, by simp⟩
  · rcases hcmd with rfl | rfl
    · obtain ⟨hrun, gevs, hg, hp, _⟩ := passesGuard_inv hguard (body env (.images force all))
      have hgp := (pruneCalls_nil_of_phase gevs hp).2
      simp only [List.nil_append] at hg
      obtain ⟨evs, hbody, hpre⟩ := images_body_calls_prefix env all force nodes st3
      rw [run_eq_guarded]
      rw [show (Command.images force all).force = force from rfl, hrun, hbody,
        imagePruneCalls_append, hg, hgp, List.nil_append, imagePruneCalls]
      have := hpre.filter (fun x => match x.2 with
        | .ImagesPrune _ => true
        | _ => false)
      rw [filter_images_map] at this
      exact this
    · obtain ⟨hrun, gevs, hg, hp, _⟩ := passesGuard_inv hguard (body env (.system force all))
      have hgp := (pruneCalls_nil_of_phase gevs hp).2
      simp only [List.nil_append] at hg
      obtain ⟨evs, hbody, hpre⟩ := system_body_calls_prefix env all force nodes st3
      rw [run_eq_guarded]
      rw [show (Command.system force all).force = force from rfl, hrun, hbody,
        imagePruneCalls_append, hg, hgp, List.nil_append, imagePruneCalls]
      have := hpre.filter (fun x => match x.2 with
        | .ImagesPrune _ => true
        | _ => false)
      rw [filter_images_systemCalls] at this
      exact this
  · intro hconn
    rcases hcmd with rfl | rfl
    · obtain ⟨hrun, gevs, hg, hp, _⟩ := passesGuard_inv hguard (body env (.images force all))
      obtain ⟨evs, hbody, hcalls⟩ := images_body_calls env all force nodes hconn st3
      have hgp := (pruneCalls_nil_of_phase gevs hp).2
      simp only [List.nil_append] at hg
      have hrun2 : run env g (.images force all) ⟨[], stdin⟩ =
          body env (.images force all) nodes st3 := by
        rw [run_eq_guarded]
        exact hrun
      rw [hrun2, hbody]
      rw [imagePruneCalls_append, hg, hgp, List.nil_append, imagePruneCalls, hcalls,
        filter_images_map]
    · obtain ⟨hrun, gevs, hg, hp, _⟩ := passesGuard_inv hguard (body env (.system force all))
      obtain ⟨evs, hbody, hcalls⟩ := system_body_calls env all force nodes hconn st3
      have hgp := (pruneCalls_nil_of_phase gevs hp).2
      simp only [List.nil_append] at hg
      have hrun2 : run env g (.system force all) ⟨[], stdin⟩ =
          body env (.system force all) nodes st3 := by
        rw [run_eq_guarded]
        exact hrun
      rw [hrun2, hbody]
      rw [imagePruneCalls_append, hg, hgp, List.nil_append, imagePruneCalls, hcalls,
        filter_images_systemCalls]

/-- C6, at an instance: the `images --all` run of the two-node scenario, confirmed
with "y". -/
theorem image_prune_requests_follow_all_flag_witness :
    imagePruneCalls
        (run scenarioEnv scenarioGlobals (.images false true) ⟨[], ["y\n"]⟩).2.trace =
      [nodeA, nodeB].map (fun n => (nodeAddr n, Request.ImagesPrune (!true))) :=
  (image_prune_requests_follow_all_flag scenarioEnv scenarioGlobals (.images false true)
    false true ["y\n"] [nodeA, nodeB] _ (Or.inl rfl) ⟨_, _, rfl, rfl, rfl⟩).2.1
    (by
      intro n hn
      simp only [List.mem_cons, List.mem_singleton, List.not_mem_nil, or_false] at hn
      rcases hn with rfl | rfl
      · exact ⟨_, rfl⟩
      · exact ⟨_, rfl⟩)

/-- C7. `NewDockerClient` hands the TLS options on exactly when the key, CA and
certificate file names are all non-empty.  Any client it returns has a TLS client
configuration in its transport if and only if all three are non-empty, and then it is the
one the library built from the options.  When one of the three is empty the result is
that of a call with empty options, whatever the other fields hold, and as soon as the
address parses the transport built is the plain one. -/
theorem tls_only_with_all_three_files (env : Env) (host : String) (tls : Options) :
    (tlsOptionsPassed tls = none ↔
      (tls.KeyFile = "" ∨ tls.CAFile = "" ∨ tls.CertFile = "")) ∧
    (∀ c, NewDockerClient env host tls = .ok c →
      (c.client.Transport.TLSClientConfig ≠ none ↔
        (tls.KeyFile ≠ "" ∧ tls.CAFile ≠ "" ∧ tls.CertFile ≠ ""))) ∧
    (∀ c, NewDockerClient env host tls = .ok c →
      tls.KeyFile ≠ "" ∧ tls.CAFile ≠ "" ∧ tls.CertFile ≠ "" →
      ∃ cfg, env.tlsconfigClient tls = .ok cfg ∧
        c.client.Transport.TLSClientConfig = some cfg) ∧
    ((tls.KeyFile = "" ∨ tls.CAFile = "" ∨ tls.CertFile = "") →
      NewDockerClient env host tls = NewDockerClient env host Options.zero ∧
      ∀ proto addr base, env.ParseHost host = .ok (proto, addr, base) →
        newHTTPClient env host (tlsOptionsPassed tls) = .ok ⟨⟨none, proto, addr⟩⟩) := by
  refine ⟨tlsOptionsPassed_eq_none tls, ?_, ?_, ?_⟩
  · intro c hc
    have hh := (NewDockerClient_ok hc).2
    by_cases hany : tls.KeyFile = "" ∨ tls.CAFile = "" ∨ tls.CertFile = ""
    · rw [(tlsOptionsPassed_eq_none tls).2 hany] at hh
      rw [newHTTPClient_none hh]
      simp only [ne_eq, not_true_eq_false, false_iff]
      intro hall
      rcases hany with h | h | h
      · exact hall.1 h
      · exact hall.2.1 h
      · exact hall.2.2 h
    · have hp : tlsOptionsPassed tls = some tls := by
        unfold tlsOptionsPassed
        rw [if_neg hany]
      rw [hp] at hh
      obtain ⟨cfg, _, hcfg⟩ := newHTTPClient_some hh
      rw [hcfg]
      simp only [ne_eq, reduceCtorEq, not_false_eq_true, true_iff]
      push_neg at hany
      exact hany
  · intro c hc hall
    have hh := (NewDockerClient_ok hc).2
    have hany : ¬ (tls.KeyFile = "" ∨ tls.CAFile = "" ∨ tls.CertFile = "") := by
      push_neg
      exact hall
    have hp : tlsOptionsPassed tls = some tls := by
      unfold tlsOptionsPassed
      rw [if_neg hany]
    rw [hp] at hh
    exact newHTTPClient_some hh
  · intro hany
    have hp := (tlsOptionsPassed_eq_none tls).2 hany
    refine ⟨?_, ?_⟩
    · unfold NewDockerClient
      rw [hp, tlsOptionsPassed_zero]
    · intro proto addr base hparse
      rw [hp]
      unfold newHTTPClient
      simp [hparse]

/-- C7, at an instance: options that name a certificate and a key but no CA file, with
the verify flag set. -/
theorem tls_only_with_all_three_files_witness :
    NewDockerClient scenarioEnv "tcp://node-a:2375" ⟨"", "cert.pem", "key.pem", true⟩ =
      NewDockerClient scenarioEnv "tcp://node-a:2375" Options.zero ∧
    ∀ proto addr base,
      scenarioEnv.ParseHost "tcp://node-a:2375" = .ok (proto, addr, base) →
      newHTTPClient scenarioEnv "tcp://node-a:2375"
        (tlsOptionsPassed ⟨"", "cert.pem", "key.pem", true⟩) = .ok ⟨⟨none, proto, addr⟩⟩ :=
  (tls_only_with_all_three_files scenarioEnv "tcp://node-a:2375"
    ⟨"", "cert.pem", "key.pem", true⟩).2.2.2 (Or.inr (Or.inl rfl))

/-- C8, as the code has it. A role check that does not confirm a manager ends the run with exit
status 1.  A failure to build a connection (to the manager address or to the address of
a node) and a failure of the node list call end the run with a panic, hence with the exit
status 2 of the Go runtime, not 1.  A run that passes the role check, is confirmed, gets
the node list and can connect to every node ends with exit status 0, whatever the
per-node operations answer. -/
theorem exit_status_by_outcome (env : Env) (g : Globals) (cmd : Command)
    (stdin : List String) :
    (∀ cli, DockerClient env g.host = .ok cli → confirmsManager env cli [] = false →
      exitStatus (run env g cmd ⟨[], stdin⟩).1 = 1) ∧
    (∀ e, DockerClient env g.host = .panic e →
      (run env g cmd ⟨[], stdin⟩).1 = .panic e ∧
      exitStatus (run env g cmd ⟨[], stdin⟩).1 = 2) ∧
    (∀ st1 st2 cli err, validate env g.host ⟨[], stdin⟩ = (.ok (), st1) →
      verifyOK cmd.force st1 = (.ok true, st2) → DockerClient env g.host = .ok cli →
      env.NodeList st2.trace cli = .error err →
      (run env g cmd ⟨[], stdin⟩).1 = .panic err ∧
      exitStatus (run env g cmd ⟨[], stdin⟩).1 = 2) ∧
    (∀ nodes st3, passesGuard env g.host cmd.force ⟨[], stdin⟩ nodes st3 →
      (∃ m ∈ nodes, ∃ e, DockerClient env (nodeAddr m) = .panic e) →
      (∃ e, (run env g cmd ⟨[], stdin⟩).1 = .panic e) ∧
      exitStatus (run env g cmd ⟨[], stdin⟩).1 = 2) ∧
    (∀ nodes st3, passesGuard env g.host cmd.force ⟨[], stdin⟩ nodes st3 →
      connects env nodes →
      (run env g cmd ⟨[], stdin⟩).1 = .ok none ∧
      exitStatus (run env g cmd ⟨[], stdin⟩).1 = 0) := by
  rw [run_eq_guarded]
  refine ⟨?_, ?_, ?_, ?_, ?_⟩
  · intro cli hc hn
    obtain ⟨evs, hg, _⟩ := guarded_not_confirmed hc cmd.force (body env cmd) ⟨[], stdin⟩ hn
    rw [hg]
    rfl
  · intro e he
    rw [guarded_panic he]
    exact ⟨rfl, rfl⟩
  · intro st1 st2 cli err hv hk hc hl
    have hg : guarded env g.host cmd.force (body env cmd) ⟨[], stdin⟩ =
        (.panic err, ⟨st2.trace ++ [.call cli .NodeList], st2.stdin⟩) := by
      simp [guarded, hv, hk, SwarmNodes_cli hc, hl]
    rw [hg]
    exact ⟨rfl, rfl⟩
  · intro nodes st3 hguard hp
    rw [(passesGuard_inv hguard (body env cmd)).1]
    obtain ⟨e, he⟩ := body_panics env cmd nodes hp st3
    rw [he]
    exact ⟨⟨e, rfl⟩, rfl⟩
  · intro nodes st3 hguard hc
    rw [(passesGuard_inv hguard (body env cmd)).1, body_returns env cmd nodes hc st3]
    exact ⟨rfl, rfl⟩

/-- C8, as the code has it, at an instance: the forced `volumes` run of the two-node scenario,
where every call on the second node fails. -/
theorem exit_status_by_outcome_witness :
    (run scenarioEnv scenarioGlobals (.volumes true) ⟨[], []⟩).1 = .ok none ∧
    exitStatus (run scenarioEnv scenarioGlobals (.volumes true) ⟨[], []⟩).1 = 0 :=
  (exit_status_by_outcome scenarioEnv scenarioGlobals (.volumes true) []).2.2.2.2
    [nodeA, nodeB] _ ⟨_, _, rfl, rfl, rfl⟩
    (by
      intro n hn
      simp only [List.mem_cons, List.mem_singleton, List.not_mem_nil, or_false] at hn
      rcases hn with rfl | rfl
      · exact ⟨_, rfl⟩
      · exact ⟨_, rfl⟩)

/-- C8, as stated, fails: when the node list call fails, the forced `system` run ends with
a panic, whose exit status is 2 and not 1. -/
theorem node_list_failure_is_not_exit_1 :
    (run noListEnv scenarioGlobals (.system true false) ⟨[], []⟩).1 =
      .panic "This node is not a swarm manager." ∧
    exitStatus (run noListEnv scenarioGlobals (.system true false) ⟨[], []⟩).1 = 2 ∧
    exitStatus (run noListEnv scenarioGlobals (.system true false) ⟨[], []⟩).1 ≠ 1 := by
  refine ⟨by decide, by decide, by decide⟩

/-- C9. In one round of the `system` loop, with `c`, `i` and `v` the byte counts that the
container, image and volume prune steps return and whatever the network prune step
returns, the step after the network prune adds `i` again: the subtotal printed for the
node is `c + 2 * i + v` modulo `2 ^ 64`, and each of `c`, `i`, `v` is 0 when its remote
call failed or deleted nothing. -/
theorem system_subtotal_counts_images_twice (env : Env) (all : Bool) (node : Node)
    (cli : Client) (total : Nat) (st st1 st2 st3 st4 : State) (c i v : Nat)
    (ec ei en ev : Option String)
    (hcli : DockerClient env (nodeAddr node) = .ok cli)
    (h1 : containerPrune env (nodeAddr node) (st.emit (.println (nodeHeader node))) =
      (.ok (c, ec), st1))
    (h2 : imagePrune env (nodeAddr node) all (printErr ec st1) = (.ok (i, ei), st2))
    (h3 : networkPrune env (nodeAddr node) (printErr ei st2) = (.ok en, st3))
    (h4 : volumePrune env (nodeAddr node) (printErr en st3) = (.ok (v, ev), st4)) :
    systemNode env all node total st =
      (.ok (addU64 total ((c + 2 * i + v) % 2 ^ 64)),
        (printErr ev st4).emit
          (.printlnSize "  Node reclaimed space:" ((c + 2 * i + v) % 2 ^ 64))) ∧
    addU64 (addU64 (addU64 (addU64 0 c) i) i) v = (c + 2 * i + v) % 2 ^ 64 ∧
    c = containersBytes
      (env.ContainersPrune (st.emit (.println (nodeHeader node))).trace cli) ∧
    i = imagesBytes (env.ImagesPrune (printErr ec st1).trace cli (!all)) ∧
    v = volumesBytes (env.VolumesPrune (printErr en st3).trace cli) := by
  have harith : addU64 (addU64 (addU64 (addU64 0 c) i) i) v = (c + 2 * i + v) % 2 ^ 64 := by
    simp only [addU64]
    omega
  refine ⟨?_, harith, (containerPrune_value hcli h1).1, (imagePrune_value hcli h2).1,
    (volumePrune_value hcli h4).1⟩
  unfold systemNode
  simp only [h1, andThen_ok, h2, h3, h4, harith]

/-- C9, at an instance: on a node whose image prune reclaims 5 bytes and whose other
three calls fail, the subtotal is 10. -/
theorem system_subtotal_counts_images_twice_witness :
    (systemNode imageOnlyEnv false nodeA 0 ⟨[], []⟩).1 = .ok 10 ∧
    5 = imagesBytes (imageOnlyEnv.ImagesPrune
      (printErr (some "transport error")
        (containerPrune imageOnlyEnv (nodeAddr nodeA)
          ((⟨[], []⟩ : State).emit (.println (nodeHeader nodeA)))).2).trace
      (⟨nodeAddr nodeA, clientVersion, ⟨⟨none, "tcp", nodeAddr nodeA⟩⟩,
        [("User-Agent", clientUserAgent imageOnlyEnv)]⟩ : Client) (!false)) :=
  have h := system_subtotal_counts_images_twice imageOnlyEnv false nodeA _ 0 ⟨[], []⟩ _ _ _ _
    0 5 0 (some "transport error") none (some "transport error") (some "transport error")
    rfl rfl rfl rfl rfl
  ⟨congrArg Prod.fst h.1, h.2.2.2.1⟩

/-- C10. Two runs that differ only in the TLS flags are the same run: same outcome, same
trace.  `DockerClient` calls `NewDockerClient` with the empty options, which hands no TLS
options on, and every client `DockerClient` returns has a plain transport. -/
theorem connection_ignores_tls_flags (env : Env) (g1 g2 : Globals) (cmd : Command)
    (st : State) (hhost : g1.host = g2.host) :
    run env g1 cmd st = run env g2 cmd st ∧
    (∀ host, DockerClient env host =
      match NewDockerClient env host Options.zero with
      | .error err => .panic err
      | .ok c => .ok c) ∧
    tlsOptionsPassed Options.zero = none ∧
    (∀ host c, DockerClient env host = .ok c → c.client.Transport.TLSClientConfig = none) := by
  refine ⟨?_, fun host => rfl, tlsOptionsPassed_zero, fun host c h => (DockerClient_ok h).2⟩
  rw [run_eq_guarded, run_eq_guarded, hhost]

/-- C10, at an instance: the forced `system` run of the two-node scenario with three
credential files named on the command line, and with none. -/
theorem connection_ignores_tls_flags_witness :
    run scenarioEnv ⟨"tcp://node-a:2375", fullOptions⟩ (.system true false) ⟨[], []⟩ =
      run scenarioEnv ⟨"tcp://node-a:2375", Options.zero⟩ (.system true false) ⟨[], []⟩ :=
  (connection_ignores_tls_flags scenarioEnv ⟨"tcp://node-a:2375", fullOptions⟩
    ⟨"tcp://node-a:2375", Options.zero⟩ (.system true false) ⟨[], []⟩ rfl).1

end SwarmPrune
